import Mathlib

/-!
Verification development for the design-audit core (aa_dauditor).

Shallow embedding conventions:
* JavaScript numbers are modelled as exact rationals (`ℚ`) wherever the source
  performs only field operations, rounding and comparisons, and as reals (`ℝ`)
  for the luminance/contrast computation which uses a non-integer power.
* JavaScript `undefined` / optional values are modelled with `Option`.
* External runtime primitives that the core only passes through — SHA-1 based
  `stableId`, `Number.prototype.toFixed` formatting, `Date` parsing and the
  `node:zlib` inflate routine — are modelled as explicit function parameters,
  since their outputs never influence any control flow of the audited logic
  (except inflate, whose failure behaviour is modelled with `Except`).
* Unbounded `while` loops and recursions over the node graph are modelled with
  an explicit fuel argument instantiated at `nodes.length + 1`, which dominates
  the iteration count of every visited-set guarded walk in the source.
-/

/- Batteries marks the `Rat` field operations `@[irreducible]`; restoring the
default reducibility lets closed rational computations of the embedding be
checked by `decide`.  This changes no definition and no proof obligation. -/
set_option allowUnsafeReducibility true
attribute [semireducible] Rat.mul Rat.add Rat.sub Rat.inv Rat.div Rat.ofScientific

namespace Audit

/-- Color record from `core/types.ts` (`NormalizedColor`): integer-intended
channels in 0..255 and a blend-fraction alpha. -/
structure NormalizedColor where
  r : ℚ
  g : ℚ
  b : ℚ
  a : ℚ
deriving DecidableEq, Repr, Inhabited

/-- Bounds record from `core/types.ts` (`NormalizedBounds`). -/
structure NormalizedBounds where
  x : ℚ
  y : ℚ
  width : ℚ
  height : ℚ
deriving DecidableEq, Repr, Inhabited

/-- Node record from `core/types.ts` (`NormalizedNode`). -/
structure NormalizedNode where
  id : String
  name : String
  type : String
  parentId : Option String := none
  bounds : Option NormalizedBounds := none
  fills : List NormalizedColor := []
  strokes : List NormalizedColor := []
  text : Option String := none
  fontSize : Option ℚ := none
  fontWeight : Option ℚ := none
  lineHeightPx : Option ℚ := none
  isInteractive : Bool := false
deriving DecidableEq, Repr, Inhabited

/-- Target record from `core/types.ts` / `normalize/model.ts`
(`NormalizedTarget`), with the `contextSource` tag and optional document
fallback background produced by `normalizeTarget`. -/
structure NormalizedTarget where
  figmaUrl : String
  nodeId : String
  frameName : String
  nodes : List NormalizedNode
  warnings : List String := []
  contextSource : String := "design-context"
  fallbackBackgroundColor : Option NormalizedColor := none
deriving DecidableEq, Repr, Inhabited

/-- `clamp` from `core/color.ts`. -/
def clamp (value min max : ℚ) : ℚ := Min.min max (Max.max min value)

/-- `isLargeText` from `core/color.ts`.  A missing or zero font size is falsy
in the source (`if (!fontSize) return false`). -/
def isLargeText (fontSize fontWeight : Option ℚ) : Bool :=
  match fontSize with
  | none => false
  | some s =>
    if s = 0 then false
    else
      let bold := decide ((700 : ℚ) ≤ fontWeight.getD 400)
      if bold then decide ((18.5 : ℚ) ≤ s) else decide ((24 : ℚ) ≤ s)

/-- `flattenAlpha` from `core/color.ts`: standard over-blend
`fg*a + bg*(1-a)` with each channel rounded to an integer
(`Math.round`, which agrees with `round` on ℚ). -/
def flattenAlpha (foreground background : NormalizedColor) : NormalizedColor :=
  let a := clamp foreground.a 0 1
  if 1 ≤ a then foreground
  else
    { r := (round (foreground.r * a + background.r * (1 - a)) : ℤ)
      g := (round (foreground.g * a + background.g * (1 - a)) : ℤ)
      b := (round (foreground.b * a + background.b * (1 - a)) : ℤ)
      a := 1 }

/-- One channel of `luminance` from `core/color.ts` (sRGB transfer curve,
with the non-integer exponent taken over ℝ). -/
noncomputable def srgbChannel (c : ℚ) : ℝ :=
  let srgb : ℝ := (c : ℝ) / 255
  if srgb ≤ 0.03928 then srgb / 12.92
  else ((srgb + 0.055) / 1.055) ^ (2.4 : ℝ)

/-- `luminance` from `core/color.ts`. -/
noncomputable def luminance (color : NormalizedColor) : ℝ :=
  0.2126 * srgbChannel color.r + 0.7152 * srgbChannel color.g +
    0.0722 * srgbChannel color.b

/-- `contrastRatio` from `core/color.ts`: the foreground is first flattened
over the background. -/
noncomputable def contrastRatio (foreground background : NormalizedColor) : ℝ :=
  let fg := flattenAlpha foreground background
  let l1 := luminance fg
  let l2 := luminance background
  let lighter := Max.max l1 l2
  let darker := Min.min l1 l2
  (lighter + 0.05) / (darker + 0.05)

/-- Pure white, the hard-coded fallback in `findNearestBackground`. -/
def whiteColor : NormalizedColor := { r := 255, g := 255, b := 255, a := 1 }

/-- Pure black (used only to exercise the contrast machinery on
exactly-representable inputs). -/
def blackColor : NormalizedColor := { r := 0, g := 0, b := 0, a := 1 }

/-- ASCII `String.prototype.toUpperCase`, written by structural recursion so
that closed instances reduce in the kernel. -/
def strUpper (s : String) : String := String.mk (s.data.map Char.toUpper)

/-- ASCII `String.prototype.toLowerCase`. -/
def strLower (s : String) : String := String.mk (s.data.map Char.toLower)

/-- `String.prototype.trim`, written by structural recursion. -/
def strTrim (s : String) : String :=
  String.mk (((s.data.dropWhile Char.isWhitespace).reverse.dropWhile
    Char.isWhitespace).reverse)

/-- `String.prototype.startsWith`, written by structural recursion. -/
def strStartsWith (s p : String) : Bool := p.data.isPrefixOf s.data

/-- `nodeMap` from `normalize/model.ts`, as a lookup: a JS `Map` built from
the node list keeps the *last* record for a duplicated id. -/
def mapGet (nodes : List NormalizedNode) (id : String) : Option NormalizedNode :=
  nodes.foldl (fun acc n => if n.id = id then some n else acc) none

/-- `layerPathForNode` from `normalize/model.ts` (cycle-guarded upward walk
collecting names root-first, joined with " > ").  `fuel` dominates the
visited-set guarded loop; it is instantiated at `nodes.length + 1`. -/
def layerPathForNodeAux (nodes : List NormalizedNode) :
    ℕ → List String → NormalizedNode → List String
  | 0, _, _ => []
  | fuel + 1, seen, current =>
    if current.id ∈ seen then []
    else
      match current.parentId.bind (mapGet nodes) with
      | none => [current.name]
      | some parent =>
        layerPathForNodeAux nodes fuel (current.id :: seen) parent ++ [current.name]

/-- `layerPathForNode` from `normalize/model.ts`. -/
def layerPathForNode (target : NormalizedTarget) (node : NormalizedNode) : String :=
  String.intercalate " > " (layerPathForNodeAux target.nodes (target.nodes.length + 1) [] node)

/-- `likelyTextNodes` from `normalize/model.ts`. -/
def likelyTextNodes (target : NormalizedTarget) : List NormalizedNode :=
  target.nodes.filter (fun node => strUpper node.type = "TEXT" || node.text.isSome)

/-- Case-insensitive substring test, modelling a `/xxx/i.test(name)` regex
whose pattern is a plain alternation of literals. -/
def strContains (hay needle : String) : Bool :=
  (hay.toList.tails).any (fun t => needle.toList.isPrefixOf t)

/-- The `/icon|input|button|radio|checkbox|toggle|tab/i` name test used by
`likelyNonTextContrastNodes`. -/
def nonTextNameSignal (name : String) : Bool :=
  let l := strLower name
  strContains l "icon" || strContains l "input" || strContains l "button" ||
    strContains l "radio" || strContains l "checkbox" || strContains l "toggle" ||
    strContains l "tab"

/-- `likelyNonTextContrastNodes` from `normalize/model.ts`: non-text nodes
with a visible fill or stroke that are interactive or icon-like by name. -/
def likelyNonTextContrastNodes (target : NormalizedTarget) : List NormalizedNode :=
  target.nodes.filter (fun node =>
    (!node.fills.isEmpty || !node.strokes.isEmpty) &&
      !(strUpper node.type = "TEXT") &&
      (node.isInteractive || nonTextNameSignal node.name))

/-- `firstFill` from `normalize/model.ts`. -/
def firstFill (node : NormalizedNode) : Option NormalizedColor := node.fills.head?

/-- `firstStroke` from `normalize/model.ts`. -/
def firstStroke (node : NormalizedNode) : Option NormalizedColor := node.strokes.head?

/-- `findNearestBackground` from `normalize/model.ts` (the query variant used
by the non-text contrast rule): walk plain parent links for the first
non-empty fill list, else fall back to a root frame fill, else white.  The
source loop has no visited-set guard, so it diverges on a cyclic parent
chain; the model returns `none` when the fuel (`nodes.length + 1`, enough for
every acyclic chain) runs out. -/
def findNearestBackgroundRoot (target : NormalizedTarget) : Option NormalizedColor :=
  match target.nodes.find? (fun n => n.parentId.isNone && !n.fills.isEmpty) with
  | some root => root.fills.head?
  | none => some whiteColor

def findNearestBackgroundAux (target : NormalizedTarget) :
    ℕ → NormalizedNode → Option NormalizedColor
  | 0, _ => none
  | fuel + 1, current =>
    match current.parentId with
    | none => findNearestBackgroundRoot target
    | some pid =>
      match mapGet target.nodes pid with
      | none => findNearestBackgroundRoot target
      | some parent =>
        if parent.fills.isEmpty then findNearestBackgroundAux target fuel parent
        else parent.fills.head?

def findNearestBackground (target : NormalizedTarget) (node : NormalizedNode) :
    Option NormalizedColor :=
  findNearestBackgroundAux target (target.nodes.length + 1) node

/-- `firstVisibleColor` from `normalize/model.ts`. -/
def firstVisibleColor (colors : List NormalizedColor) : Option NormalizedColor :=
  colors.find? (fun color => (0.001 : ℚ) < color.a)

/-- `isTextualNode` from `normalize/model.ts`. -/
def isTextualNode (node : NormalizedNode) : Bool :=
  strUpper node.type = "TEXT" || node.text.isSome

/-- `rectCovers` from `normalize/model.ts`: rectangle containment with an
absolute tolerance of 0.25 units. -/
def rectCovers (backgroundBounds nodeBounds : NormalizedBounds) : Bool :=
  let epsilon : ℚ := 0.25
  decide (backgroundBounds.x ≤ nodeBounds.x + epsilon) &&
    decide (backgroundBounds.y ≤ nodeBounds.y + epsilon) &&
    decide (nodeBounds.x + nodeBounds.width - epsilon ≤
      backgroundBounds.x + backgroundBounds.width) &&
    decide (nodeBounds.y + nodeBounds.height - epsilon ≤
      backgroundBounds.y + backgroundBounds.height)

/-- `BoundsContext` from `normalize/model.ts`. -/
structure BoundsContext where
  accumulatedBoundsById : List (String × NormalizedBounds)
  allowAccumulatedCoverage : Bool
deriving DecidableEq, Repr, Inhabited

def assocFind (l : List (String × NormalizedBounds)) (id : String) :
    Option NormalizedBounds :=
  (l.find? (fun p => p.1 = id)).map (·.2)

/-- The memoised `resolveAccumulated` closure inside `buildBoundsContext`
(`normalize/model.ts`): root-accumulated bounds with a visiting-set cycle
guard; results are cached in traversal order, reproducing the source's
memoisation exactly. -/
def resolveAccumulatedAux (nodes : List NormalizedNode) :
    ℕ → List String → List (String × NormalizedBounds) → NormalizedNode →
      Option NormalizedBounds × List (String × NormalizedBounds)
  | 0, _, out, current => (current.bounds, out)
  | fuel + 1, visiting, out, current =>
    match assocFind out current.id with
    | some cached => (some cached, out)
    | none =>
      match current.bounds with
      | none => (none, out)
      | some cb =>
        if current.id ∈ visiting then (some cb, out)
        else
          let step :=
            match current.parentId.bind (mapGet nodes) with
            | none => ((none : Option NormalizedBounds), out)
            | some parent =>
              resolveAccumulatedAux nodes fuel (current.id :: visiting) out parent
          let resolved :=
            match step.1 with
            | some pb =>
              { x := pb.x + cb.x, y := pb.y + cb.y
                width := cb.width, height := cb.height : NormalizedBounds }
            | none => cb
          (some resolved, (current.id, resolved) :: step.2)

/-- `buildBoundsContext` from `normalize/model.ts`. -/
def buildBoundsContext (target : NormalizedTarget) : BoundsContext :=
  let out := target.nodes.foldl
    (fun out n =>
      (resolveAccumulatedAux target.nodes (target.nodes.length + 1) [] out n).2)
    []
  { accumulatedBoundsById := out
    allowAccumulatedCoverage := target.contextSource = "metadata-fallback" }

/-- `boundsCover` from `normalize/model.ts` (the context-aware variant used by
`resolveEffectiveBackground`): a missing rectangle on either side counts as
full coverage; raw bounds are tried first, root-accumulated bounds only in a
"metadata-fallback" context. -/
def boundsCover (backgroundNode node : NormalizedNode) (ctx : BoundsContext) : Bool :=
  match backgroundNode.bounds, node.bounds with
  | none, _ => true
  | _, none => true
  | some bb, some nb =>
    if rectCovers bb nb then true
    else if !ctx.allowAccumulatedCoverage then false
    else
      match assocFind ctx.accumulatedBoundsById backgroundNode.id,
          assocFind ctx.accumulatedBoundsById node.id with
      | some ba, some na => rectCovers ba na
      | _, _ => false

/-- `buildChildrenByParent` from `normalize/model.ts`, as a per-parent lookup:
the children of `pid` in node-list order. -/
def childrenOf (nodes : List NormalizedNode) (pid : String) : List NormalizedNode :=
  nodes.filter (fun n => n.parentId = some pid)

/-- An overlay candidate recorded by `resolveEffectiveBackground`. -/
structure Overlay where
  color : NormalizedColor
  path : String
deriving DecidableEq, Repr, Inhabited

/-- `BackgroundResolution` from `normalize/model.ts`. -/
structure BackgroundResolution where
  color : Option NormalizedColor := none
  sourceLayerPath : Option String := none
  reason : Option String := none
deriving DecidableEq, Repr, Inhabited

/-- `resolveCoveringFillInNode` from `normalize/model.ts`: depth-first search
of a sibling subtree, children visited in reverse order (later children paint
on top), for the first covering non-text visible fill.  The source recursion
has no cycle guard (its termination relies on the parent links being acyclic);
the fuel `nodes.length + 1` dominates every acyclic descent. -/
def resolveCoveringFillInNode (nodes : List NormalizedNode) (ctx : BoundsContext)
    (subject : NormalizedNode) :
    ℕ → NormalizedNode → Option (NormalizedColor × NormalizedNode)
  | 0, _ => none
  | fuel + 1, current =>
    if !boundsCover current subject ctx then none
    else
      let fromChildren := ((childrenOf nodes current.id).reverse).findSome?
        (fun child => resolveCoveringFillInNode nodes ctx subject fuel child)
      match fromChildren with
      | some hit => some hit
      | none =>
        match (if isTextualNode current then none else firstVisibleColor current.fills) with
        | some fill => some (fill, current)
        | none => none

/-- `resolveSiblingOverlay` from `normalize/model.ts`: among the children of
`current.parentId`, scan the siblings painted *behind* `current` (earlier in
the node array) from nearest to furthest for a covering fill in their
subtrees. -/
def resolveSiblingOverlay (target : NormalizedTarget) (ctx : BoundsContext)
    (current subject : NormalizedNode) : Option Overlay :=
  match current.parentId with
  | none => none
  | some pid =>
    let siblings := childrenOf target.nodes pid
    if siblings.isEmpty then none
    else
      match siblings.findIdx? (fun candidate => candidate.id = current.id) with
      | none => none
      | some 0 => none
      | some (k + 1) =>
        ((siblings.take (k + 1)).reverse).findSome? (fun candidate =>
          (resolveCoveringFillInNode target.nodes ctx subject
              (target.nodes.length + 1) candidate).map
            (fun hit => { color := hit.1, path := layerPathForNode target hit.2 }))

/-- The ancestor-walk loop of `resolveEffectiveBackground`
(`normalize/model.ts`): climbs `parentId` links (visited-set guarded),
first trying a behind-sibling overlay at each level, then the ancestor's own
fill (skipped for text-like ancestors, counted in `skippedByCoverage` when the
ancestor fails the coverage test).  Returns the collected overlay candidates
(nearest first) and the coverage-skip count. -/
def collectOverlaysAux (target : NormalizedTarget) (subject : NormalizedNode)
    (ctx : BoundsContext) :
    ℕ → List String → NormalizedNode → List Overlay → ℕ → List Overlay × ℕ
  | 0, _, _, overlays, skipped => (overlays, skipped)
  | fuel + 1, visited, current, overlays, skipped =>
    match current.parentId with
    | none => (overlays, skipped)
    | some pid =>
      if pid ∈ visited then (overlays, skipped)
      else
        match mapGet target.nodes pid with
        | none => (overlays, skipped)
        | some parent =>
          let overlays1 :=
            match resolveSiblingOverlay target ctx current subject with
            | some o => overlays ++ [o]
            | none => overlays
          match (if isTextualNode parent then none else firstVisibleColor parent.fills) with
          | none =>
            collectOverlaysAux target subject ctx fuel (pid :: visited) parent overlays1 skipped
          | some backgroundFill =>
            if boundsCover parent subject ctx then
              collectOverlaysAux target subject ctx fuel (pid :: visited) parent
                (overlays1 ++ [{ color := backgroundFill
                                 path := layerPathForNode target parent }])
                skipped
            else
              collectOverlaysAux target subject ctx fuel (pid :: visited) parent overlays1
                (skipped + 1)

def collectOverlays (target : NormalizedTarget) (node : NormalizedNode) :
    List Overlay × ℕ :=
  collectOverlaysAux target node (buildBoundsContext target)
    (target.nodes.length + 1) [] node [] 0

/-- The `baseIndex` scan of `resolveEffectiveBackground`: `scanBaseGo ov k`
is the loop `for i = k-1 downto 0`, stopping at the first candidate with
alpha ≥ 0.999. -/
def scanBaseGo (overlays : List Overlay) : ℕ → Option ℕ
  | 0 => none
  | i + 1 =>
    if (0.999 : ℚ) ≤ (overlays.getD i default).color.a then some i
    else scanBaseGo overlays i

/-- The composition loop of `resolveEffectiveBackground`: `composeGo ov k acc`
runs `for i = k-1 downto 0: acc = flattenAlpha(ov[i], acc)`. -/
def composeGo (overlays : List Overlay) : ℕ → NormalizedColor → NormalizedColor
  | 0, acc => acc
  | i + 1, acc => composeGo overlays i (flattenAlpha (overlays.getD i default).color acc)

/-- Source text of the three failure reasons of `resolveEffectiveBackground`. -/
def coverageFailReason : String :=
  "Ancestor backgrounds exist but do not fully cover this layer bounds."

def noCoveringReason : String :=
  "No solid ancestor background found (transparent/image/gradient context)."

def translucentOnlyReason : String :=
  "Only translucent ancestor backgrounds found; effective backdrop remains dynamic."

def documentFallbackPath : String := "[design-context-fallback] document background"

/-- `resolveEffectiveBackground` from `normalize/model.ts` (the authoritative
second listing, lines 785-885): collect overlay candidates along the ancestor
walk; with none, fall back to the document background, else report a coverage
or no-background reason; with candidates, find the furthest fully opaque base
and over-blend every nearer candidate onto it. -/
def resolveEffectiveBackground (target : NormalizedTarget) (node : NormalizedNode) :
    BackgroundResolution :=
  let collected := collectOverlays target node
  let overlays := collected.1
  let skippedByCoverage := collected.2
  if overlays.isEmpty then
    match target.fallbackBackgroundColor with
    | some fallback =>
      { color := some fallback, sourceLayerPath := some documentFallbackPath }
    | none =>
      if 0 < skippedByCoverage then { reason := some coverageFailReason }
      else { reason := some noCoveringReason }
  else
    match scanBaseGo overlays overlays.length with
    | none => { reason := some translucentOnlyReason }
    | some baseIndex =>
      let resolved := composeGo overlays baseIndex (overlays.getD baseIndex default).color
      { color := some resolved
        sourceLayerPath :=
          some (String.intercalate " <= "
            ((overlays.take (baseIndex + 1)).map (·.path))) }

/-- `richerString` from `normalize/model.ts` (empty strings are falsy in the
source; otherwise the longer of the two wins, the existing one on ties). -/
def richerString (a b : String) : Option String :=
  if a = "" then (if b = "" then none else some b)
  else if b = "" then some a
  else if a.length < b.length then some b else some a

/-- The merge of one duplicate record onto the already-stored one inside
`mergeNodesById` (`normalize/model.ts`): the object spread keeps the existing
record and overrides the listed fields. -/
def mergeTwo (existing node : NormalizedNode) : NormalizedNode :=
  { existing with
    name := (richerString existing.name node.name).getD existing.name
    type := (richerString existing.type node.type).getD existing.type
    parentId := existing.parentId.orElse (fun _ => node.parentId)
    bounds := existing.bounds.orElse (fun _ => node.bounds)
    fills := if node.fills.isEmpty then existing.fills else node.fills
    strokes := if node.strokes.isEmpty then existing.strokes else node.strokes
    text := node.text.orElse (fun _ => existing.text)
    fontSize := existing.fontSize.orElse (fun _ => node.fontSize)
    fontWeight := existing.fontWeight.orElse (fun _ => node.fontWeight)
    lineHeightPx := existing.lineHeightPx.orElse (fun _ => node.lineHeightPx)
    isInteractive := existing.isInteractive || node.isInteractive }

/-- One step of `mergeNodesById`: a JS `Map.set` on an existing key updates
in place (keeping insertion order), otherwise appends. -/
def insertMerged : List NormalizedNode → NormalizedNode → List NormalizedNode
  | [], node => [node]
  | m :: rest, node =>
    if m.id = node.id then mergeTwo m node :: rest else m :: insertMerged rest node

/-- `mergeNodesById` from `normalize/model.ts`: fold the raw records into an
id-keyed map, merging duplicates, and return the values in insertion order. -/
def mergeNodesById (nodes : List NormalizedNode) : List NormalizedNode :=
  nodes.foldl insertMerged []

/-- Stable insertion sort, modelling `Array.prototype.sort` with a consistent
comparator (the ECMAScript sort is required to be stable; for a consistent
comparator the stable sorted permutation is unique, so any stable sort is a
faithful model).  `le a b` means "the comparator puts `a` not after `b`". -/
def insertSorted (le : α → α → Bool) (x : α) : List α → List α
  | [] => [x]
  | y :: ys => if le x y then x :: y :: ys else y :: insertSorted le x ys

def insertionSort (le : α → α → Bool) : List α → List α
  | [] => []
  | x :: xs => insertSorted le x (insertionSort le xs)

def isHexDigit (c : Char) : Bool :=
  c.isDigit || ('A' ≤ c && c ≤ 'F') || ('a' ≤ c && c ≤ 'f')

def hexDigitVal (c : Char) : ℕ :=
  if c.isDigit then c.toNat - '0'.toNat
  else if 'a' ≤ c then c.toNat - 'a'.toNat + 10
  else c.toNat - 'A'.toNat + 10

/-- `normalizeHex` from `rules/recommend-color.ts`: expand `#RGB` / `#RGBA`
shorthands and uppercase. -/
def normalizeHex (value : String) : String :=
  let trimmed := strTrim value
  match trimmed.toList with
  | ['#', r, g, b] =>
    if isHexDigit r && isHexDigit g && isHexDigit b then
      strUpper (String.mk ['#', r, r, g, g, b, b])
    else strUpper trimmed
  | ['#', r, g, b, a] =>
    if isHexDigit r && isHexDigit g && isHexDigit b && isHexDigit a then
      strUpper (String.mk ['#', r, r, g, g, b, b, a, a])
    else strUpper trimmed
  | _ => strUpper trimmed

/-- The `^#[0-9A-F]{6}([0-9A-F]{2})?$/i` shape test of `parseHexColor`. -/
def hexColorShape (s : String) : Bool :=
  match s.toList with
  | '#' :: rest => (rest.length = 6 || rest.length = 8) && rest.all isHexDigit
  | _ => false

/-- `parseHexColor` from `rules/recommend-color.ts`. -/
def parseHexColor (value : String) : Option NormalizedColor :=
  let hex := normalizeHex value
  if !hexColorShape hex then none
  else
    match hex.toList with
    | _ :: r1 :: r2 :: g1 :: g2 :: b1 :: b2 :: rest =>
      let r : ℚ := (hexDigitVal r1 * 16 + hexDigitVal r2 : ℕ)
      let g : ℚ := (hexDigitVal g1 * 16 + hexDigitVal g2 : ℕ)
      let b : ℚ := (hexDigitVal b1 * 16 + hexDigitVal b2 : ℕ)
      match rest with
      | [] => some { r := r, g := g, b := b, a := 1 }
      | [a1, a2] =>
        some { r := r, g := g, b := b
               a := ((hexDigitVal a1 * 16 + hexDigitVal a2 : ℕ) : ℚ) / 255 }
      | _ => none
    | _ => none

/-- `TokenColor` from `rules/recommend-color.ts`. -/
structure TokenColor where
  token : String
  hex : String
  color : NormalizedColor
deriving DecidableEq, Repr, Inhabited

/-- `Candidate` from `rules/recommend-color.ts`. -/
structure Candidate where
  token : String
  hex : String
  color : NormalizedColor
  ratio : ℝ
  distance : ℝ

/-- The joint-pair result of `findBestTokenPair`. -/
structure TokenPair where
  foreground : TokenColor
  background : TokenColor
  ratio : ℝ
  distance : ℝ

/-- `rgbDistance` from `rules/recommend-color.ts`. -/
noncomputable def rgbDistance (a b : NormalizedColor) : ℝ :=
  Real.sqrt (((a.r - b.r : ℚ) : ℝ) ^ 2 + ((a.g - b.g : ℚ) : ℝ) ^ 2 +
    ((a.b - b.b : ℚ) : ℝ) ^ 2)

/-- `parseTokenColors` from `rules/recommend-color.ts`; a `Record` is modelled
as its insertion-ordered entry list. -/
def parseTokenColors (designSystemColors : List (String × String)) : List TokenColor :=
  designSystemColors.filterMap (fun entry =>
    (parseHexColor entry.2).map (fun parsed =>
      { token := entry.1, hex := normalizeHex entry.2, color := parsed }))

/-- The comparator of `findForegroundCandidates` / `findBestBackgroundReplacement`:
ascending distance, ties by descending ratio. -/
noncomputable def candidateBefore (a b : Candidate) : Bool :=
  decide (a.distance < b.distance) ||
    (decide (a.distance = b.distance) && decide (b.ratio ≤ a.ratio))

/-- `findForegroundCandidates` from `rules/recommend-color.ts`. -/
noncomputable def findForegroundCandidates (tokenColors : List TokenColor)
    (foreground background : NormalizedColor) (threshold : ℝ) : List Candidate :=
  let candidates := tokenColors.filterMap (fun tokenColor =>
    let ratio := contrastRatio tokenColor.color background
    if ratio < threshold then none
    else some { token := tokenColor.token, hex := tokenColor.hex
                color := tokenColor.color, ratio := ratio
                distance := rgbDistance tokenColor.color foreground })
  insertionSort candidateBefore candidates

/-- `findBestBackgroundReplacement` from `rules/recommend-color.ts`: only
fully opaque tokens are considered. -/
noncomputable def findBestBackgroundReplacement (tokenColors : List TokenColor)
    (foreground background : NormalizedColor) (threshold : ℝ) : Option Candidate :=
  let candidates := tokenColors.filterMap (fun tokenColor =>
    if tokenColor.color.a < 1 then none
    else
      let ratio := contrastRatio foreground tokenColor.color
      if ratio < threshold then none
      else some { token := tokenColor.token, hex := tokenColor.hex
                  color := tokenColor.color, ratio := ratio
                  distance := rgbDistance tokenColor.color background })
  (insertionSort candidateBefore candidates).head?

/-- The inner-loop body of `findBestTokenPair`: skip non-opaque backgrounds
and below-threshold pairs, otherwise keep the pair with the smaller summed
distance, ties broken by the higher ratio (first seen wins full ties). -/
noncomputable def pairStep (foreground background : NormalizedColor) (threshold : ℝ)
    (best : Option TokenPair) (fgToken bgToken : TokenColor) : Option TokenPair :=
  if bgToken.color.a < 1 then best
  else
    let ratio := contrastRatio fgToken.color bgToken.color
    if ratio < threshold then best
    else
      let distance :=
        rgbDistance fgToken.color foreground + rgbDistance bgToken.color background
      match best with
      | none =>
        some { foreground := fgToken, background := bgToken
               ratio := ratio, distance := distance }
      | some b =>
        if distance < b.distance ∨ (distance = b.distance ∧ b.ratio < ratio) then
          some { foreground := fgToken, background := bgToken
                 ratio := ratio, distance := distance }
        else best

/-- `findBestTokenPair` from `rules/recommend-color.ts`: exhaustive nested
loops over foreground × background token combinations. -/
noncomputable def findBestTokenPair (tokenColors : List TokenColor)
    (foreground background : NormalizedColor) (threshold : ℝ) : Option TokenPair :=
  tokenColors.foldl
    (fun best fgToken =>
      tokenColors.foldl
        (fun b bgToken => pairStep foreground background threshold b fgToken bgToken)
        best)
    none

/-- Opaque JavaScript runtime primitives threaded through the embedding:
the SHA-1 based `stableId` (`core/id.ts`) and numeric `toFixed` / template
stringification.  No audited control flow inspects their outputs. -/
structure JsPrims where
  stableId : List String → String
  fmtReal : ℝ → ℕ → String
  fmtRat : ℚ → ℕ → String
  numToString : ℚ → String

/-- A concrete instantiation of the runtime primitives, used to evaluate the
embedding on closed inputs. -/
def trivialPrims : JsPrims :=
  { stableId := fun parts => String.intercalate "::" parts
    fmtReal := fun _ _ => ""
    fmtRat := fun _ _ => ""
    numToString := fun _ => "" }

/-- `colorToString` from `core/color.ts` (numeric formatting routed through
the opaque primitives). -/
def colorToString (P : JsPrims) (color : NormalizedColor) : String :=
  "rgba(" ++ P.numToString color.r ++ ", " ++ P.numToString color.g ++ ", " ++
    P.numToString color.b ++ ", " ++ P.fmtRat color.a 2 ++ ")"

/-- The explicit no-candidate message of
`recommendDesignSystemColorsForContrast`. -/
def noTokenMessage (P : JsPrims) (threshold : ℝ) : String :=
  "No design-system color token meets " ++ P.fmtReal threshold 1 ++
    ":1 contrast for this foreground/background combination."

/-- `recommendDesignSystemColorsForContrast` from `rules/recommend-color.ts`
(the authoritative second listing in the source file). -/
noncomputable def recommendDesignSystemColorsForContrast (P : JsPrims)
    (designSystemColors : Option (List (String × String)))
    (foreground background : NormalizedColor) (threshold : ℝ) : Option String :=
  match designSystemColors with
  | none => none
  | some entries =>
    if entries.isEmpty then none
    else
      let tokenColors := parseTokenColors entries
      if tokenColors.isEmpty then none
      else
        let fgCandidates :=
          findForegroundCandidates tokenColors foreground background threshold
        let bestForeground := fgCandidates.head?
        let bestBackground :=
          findBestBackgroundReplacement tokenColors foreground background threshold
        let bestPair := findBestTokenPair tokenColors foreground background threshold
        if bestForeground.isNone && bestBackground.isNone && bestPair.isNone then
          some (noTokenMessage P threshold)
        else
          let partA := bestForeground.map (fun c =>
            "Fix A (replace foreground variable): " ++ c.token ++ " (" ++ c.hex ++
              ") -> " ++ P.fmtReal c.ratio 2 ++ ":1")
          let partB := bestBackground.map (fun c =>
            "Fix B (replace background variable): " ++ c.token ++ " (" ++ c.hex ++
              ") -> " ++ P.fmtReal c.ratio 2 ++ ":1")
          let partC := bestPair.map (fun p =>
            "Fix C (replace both with variables): fg " ++ p.foreground.token ++
              " (" ++ p.foreground.hex ++ ") + bg " ++ p.background.token ++ " (" ++
              p.background.hex ++ ") -> " ++ P.fmtReal p.ratio 2 ++ ":1")
          let alternatives := String.intercalate "; "
            ((fgCandidates.take 3).map (fun entry =>
              entry.token ++ " (" ++ entry.hex ++ ", " ++ P.fmtReal entry.ratio 2 ++
                ":1)"))
          let partAlt :=
            if alternatives = "" then none
            else some ("Other passing foreground variables: " ++ alternatives ++ ".")
          some ("Variable-aware fix suggestions: " ++
            String.intercalate " " ([partA, partB, partC, partAlt].filterMap id))

/-- `recommendTokensForManualColorReview` from `rules/recommend-color.ts`
(`localeCompare` ordering modelled as the lexicographic string order). -/
def recommendTokensForManualColorReview
    (designSystemColors : Option (List (String × String))) (limit : ℕ := 5) :
    Option String :=
  match designSystemColors with
  | none => none
  | some entries =>
    if entries.isEmpty then none
    else
      let es := (insertionSort (fun a b => decide (a.1 ≤ b.1))
        (entries.map (fun e => (e.1, normalizeHex e.2)))).take limit
      if es.isEmpty then none
      else
        some ("Contrast data unavailable. Start review using design-system variable tokens: " ++
          String.intercalate "; " (es.map (fun e => e.1 ++ " (" ++ e.2 ++ ")")) ++ ".")

inductive Severity where
  | blocker
  | critical
  | major
  | minor
deriving DecidableEq, Repr, Inhabited

inductive FindingStatus where
  | failed
  | needsManualReview
deriving DecidableEq, Repr, Inhabited

/-- `Suppression` from `core/types.ts`. -/
structure Suppression where
  ruleId : String
  targetId : String
  reason : String
  expiresOn : String
  owner : Option String := none
deriving DecidableEq, Repr, Inhabited

/-- `ActiveSuppression` from `core/types.ts`. -/
structure ActiveSuppression extends Suppression where
  matchedAt : String
deriving DecidableEq, Repr, Inhabited

/-- `targetRef` payload of a `Finding`. -/
structure TargetRef where
  figmaUrl : String
  nodeId : String
  frameName : String
  layerPath : Option String := none
deriving DecidableEq, Repr, Inhabited

/-- `Finding` from `core/types.ts`. -/
structure Finding where
  id : String
  ruleId : String
  wcagCriterion : String
  severity : Severity
  status : FindingStatus
  message : String
  recommendation : Option String := none
  evidence : Option String := none
  targetRef : TargetRef
  suppressed : Option ActiveSuppression := none
deriving DecidableEq, Repr, Inhabited

def textRuleId : String := "WCAG-1.4.3-text-contrast-minimum"

def nonTextRuleId : String := "WCAG-1.4.11-nontext-contrast"

/-- JS string truthiness for optional strings (empty strings are falsy). -/
def optTruthy (s : Option String) : Option String :=
  match s with
  | some str => if str = "" then none else some str
  | none => none

/-- `[...].filter(Boolean).join(" | ")` over optional evidence parts. -/
def joinEvidence (parts : List (Option String)) : String :=
  String.intercalate " | " ((parts.filterMap id).filter (fun s => !(s = "")))

/-- The foreground/background color acquisition of `evaluateTextContrast`
(`rules/rule-contrast-text.ts`): the screenshot background sampler fires when
the resolver failed or only produced the document fallback; the foreground
sampler fires only when the node has no direct fill and a background exists. -/
structure TextRuleColorData where
  directFg : Option NormalizedColor
  bgResolution : BackgroundResolution
  sampledBg : Option NormalizedColor
  sampledFg : Option NormalizedColor
  fg : Option NormalizedColor
  bg : Option NormalizedColor

def textRuleColors
    (sampleBg : Option (NormalizedNode → Option NormalizedColor → Option NormalizedColor))
    (sampleFg : Option (NormalizedNode → NormalizedColor → Option NormalizedColor))
    (target : NormalizedTarget) (node : NormalizedNode) : TextRuleColorData :=
  let directFg := firstFill node
  let bgResolution := resolveEffectiveBackground target node
  let usesDocumentFallbackBackground :=
    strStartsWith (bgResolution.sourceLayerPath.getD "") "[design-context-fallback]"
  let sampledBg :=
    match sampleBg with
    | some sampler =>
      if bgResolution.color.isNone || usesDocumentFallbackBackground then
        sampler node directFg
      else none
    | none => none
  let bg := sampledBg.orElse (fun _ => bgResolution.color)
  let sampledFg :=
    match directFg, bg, sampleFg with
    | none, some b, some sampler => sampler node b
    | _, _, _ => none
  let fg := directFg.orElse (fun _ => sampledFg)
  { directFg := directFg, bgResolution := bgResolution, sampledBg := sampledBg
    sampledFg := sampledFg, fg := fg, bg := bg }

/-- The required text-contrast threshold: 3:1 for large text, 4.5:1 otherwise. -/
noncomputable def requiredTextThreshold (node : NormalizedNode) : ℝ :=
  if isLargeText node.fontSize node.fontWeight then 3 else 4.5

/-- The per-node body of `evaluateTextContrast`
(`rules/rule-contrast-text.ts`): `none` when the node passes, otherwise the
emitted finding. -/
noncomputable def textContrastFindingForNode (P : JsPrims)
    (sampleBg : Option (NormalizedNode → Option NormalizedColor → Option NormalizedColor))
    (sampleFg : Option (NormalizedNode → NormalizedColor → Option NormalizedColor))
    (designSystemColors : Option (List (String × String)))
    (target : NormalizedTarget) (node : NormalizedNode) : Option Finding :=
  let data := textRuleColors sampleBg sampleFg target node
  let layerPath := layerPathForNode target node
  let nodePart : Option String := some ("Node " ++ node.id ++ " (" ++ node.name ++ ")")
  let bgSourcePart : Option String :=
    if data.sampledBg.isSome then some "backgroundSource=[screenshot-von-neumann]"
    else
      match optTruthy data.bgResolution.sourceLayerPath with
      | some p => some ("backgroundSource=" ++ p)
      | none => none
  let fgSourcePart : Option String :=
    if data.sampledFg.isSome then some "foregroundSource=[screenshot-text-region]"
    else none
  let targetRef : TargetRef :=
    { figmaUrl := target.figmaUrl, nodeId := node.id
      frameName := target.frameName, layerPath := some layerPath }
  match data.fg, data.bg with
  | some fg, some bg =>
    let ratio := contrastRatio fg bg
    let threshold := requiredTextThreshold node
    if threshold ≤ ratio then none
    else
      some
        { id := P.stableId [textRuleId, target.nodeId, node.id, P.fmtReal ratio 3,
            P.fmtReal threshold 1]
          ruleId := textRuleId
          wcagCriterion := "1.4.3"
          severity := Severity.critical
          status := FindingStatus.failed
          message := "Text contrast ratio " ++ P.fmtReal ratio 2 ++
            ":1 is below required " ++ P.fmtReal threshold 1 ++ ":1."
          recommendation :=
            recommendDesignSystemColorsForContrast P designSystemColors fg bg threshold
          evidence := some (joinEvidence
            [nodePart,
             some ("textColor=" ++ colorToString P fg),
             some ("backgroundColor=" ++ colorToString P bg),
             fgSourcePart,
             bgSourcePart])
          targetRef := targetRef }
  | fgOpt, _ =>
    let missingPart :=
      if fgOpt.isNone then "text foreground color"
      else data.bgResolution.reason.getD "effective background color"
    some
      { id := P.stableId [textRuleId, target.nodeId, node.id, "manual"]
        ruleId := textRuleId
        wcagCriterion := "1.4.3"
        severity := Severity.major
        status := FindingStatus.needsManualReview
        message := "Could not reliably determine text/background colors for contrast calculation (" ++
          missingPart ++ ")."
        recommendation := recommendTokensForManualColorReview designSystemColors
        evidence := some (joinEvidence
          [nodePart, bgSourcePart, fgSourcePart,
           (match optTruthy data.bgResolution.reason with
            | some r => some ("backgroundReason=" ++ r)
            | none => none)])
        targetRef := targetRef }

/-- `evaluateTextContrast` from `rules/rule-contrast-text.ts`. -/
noncomputable def evaluateTextContrast (P : JsPrims)
    (sampleBg : Option (NormalizedNode → Option NormalizedColor → Option NormalizedColor))
    (sampleFg : Option (NormalizedNode → NormalizedColor → Option NormalizedColor))
    (designSystemColors : Option (List (String × String)))
    (target : NormalizedTarget) : List Finding :=
  (likelyTextNodes target).filterMap
    (textContrastFindingForNode P sampleBg sampleFg designSystemColors target)

/-- The per-node body of `evaluateNonTextContrast`
(`rules/rule-target-size.ts`, second listing): foreground is the first stroke
or fill, the background comes from `findNearestBackground` with no sampling
fallback; missing colors downgrade to a manual-review finding. -/
noncomputable def nonTextContrastFindingForNode (P : JsPrims)
    (designSystemColors : Option (List (String × String)))
    (target : NormalizedTarget) (node : NormalizedNode) : Option Finding :=
  let fg := (firstStroke node).orElse (fun _ => firstFill node)
  let bg := findNearestBackground target node
  let layerPath := layerPathForNode target node
  let targetRef : TargetRef :=
    { figmaUrl := target.figmaUrl, nodeId := node.id
      frameName := target.frameName, layerPath := some layerPath }
  match fg, bg with
  | some f, some b =>
    let ratio := contrastRatio f b
    if (3 : ℝ) ≤ ratio then none
    else
      some
        { id := P.stableId [nonTextRuleId, target.nodeId, node.id, P.fmtReal ratio 3]
          ruleId := nonTextRuleId
          wcagCriterion := "1.4.11"
          severity := Severity.major
          status := FindingStatus.failed
          message := "Non-text contrast ratio " ++ P.fmtReal ratio 2 ++
            ":1 is below required 3.0:1."
          recommendation :=
            recommendDesignSystemColorsForContrast P designSystemColors f b 3
          evidence := some (joinEvidence
            [some ("Node " ++ node.id ++ " (" ++ node.name ++ ")"),
             some ("foreground=" ++ colorToString P f),
             some ("background=" ++ colorToString P b)])
          targetRef := targetRef }
  | _, _ =>
    some
      { id := P.stableId [nonTextRuleId, target.nodeId, node.id, "manual"]
        ruleId := nonTextRuleId
        wcagCriterion := "1.4.11"
        severity := Severity.major
        status := FindingStatus.needsManualReview
        message := "Could not reliably determine non-text foreground/background colors."
        recommendation := recommendTokensForManualColorReview designSystemColors
        evidence := some ("Node " ++ node.id ++ " (" ++ node.name ++ ")")
        targetRef := targetRef }

/-- `evaluateNonTextContrast` from `rules/rule-target-size.ts`
(second listing). -/
noncomputable def evaluateNonTextContrast (P : JsPrims)
    (designSystemColors : Option (List (String × String)))
    (target : NormalizedTarget) : List Finding :=
  (likelyNonTextContrastNodes target).filterMap
    (nonTextContrastFindingForNode P designSystemColors target)

/-- `SuppressionResult` from `suppressions/apply.ts`. -/
structure SuppressionResult where
  findings : List Finding
  warnings : List String
deriving DecidableEq, Repr, Inhabited

/-- The per-suppression validation of `applySuppressions`
(`suppressions/apply.ts`): keep/drop verdict plus the warning emitted when
dropped.  `parseDate` models `new Date(...).getTime()` (`none` = `NaN`). -/
def suppressionCheck (parseDate : String → Option ℤ) (nowMs : ℤ) (idx : ℕ)
    (s : Suppression) : Bool × Option String :=
  if strTrim s.reason = "" then
    (false, some ("Suppression[" ++ toString idx ++ "] ignored because reason is empty."))
  else
    match parseDate s.expiresOn with
    | none =>
      (false, some ("Suppression " ++ s.ruleId ++ "/" ++ s.targetId ++
        " ignored due to invalid expiresOn date."))
    | some expiry =>
      if expiry < nowMs then
        (false, some ("Suppression " ++ s.ruleId ++ "/" ++ s.targetId ++
          " expired on " ++ s.expiresOn ++ "."))
      else (true, none)

/-- The rule/target match test of `applySuppressions`. -/
def suppressionMatches (s : Suppression) (finding : Finding) : Bool :=
  s.ruleId = finding.ruleId &&
    (s.targetId = "*" || s.targetId = finding.targetRef.nodeId)

/-- `applySuppressions` from `suppressions/apply.ts`.  `nowIso` models
`now.toISOString()`. -/
def applySuppressions (parseDate : String → Option ℤ) (nowMs : ℤ) (nowIso : String)
    (findings : List Finding) (suppressions : List Suppression) : SuppressionResult :=
  let checks := suppressions.enum.map
    (fun p => (p.2, suppressionCheck parseDate nowMs p.1 p.2))
  let warnings := checks.filterMap (fun c => c.2.2)
  let active := (checks.filter (fun c => c.2.1)).map (·.1)
  let updatedFindings := findings.map (fun finding =>
    match active.find? (fun s => suppressionMatches s finding) with
    | none => finding
    | some m =>
      { finding with
        suppressed := some { toSuppression := m, matchedAt := nowIso } })
  { findings := updatedFindings, warnings := warnings }

/-- `shouldFailBuild` from `severity/policy.ts`. -/
def shouldFailBuild (findings : List Finding) (failOn : List Severity) : Bool :=
  findings.any (fun finding =>
    finding.status = FindingStatus.failed && finding.suppressed.isNone &&
      failOn.contains finding.severity)

/-- `DecodedPng` from `core/screenshot-sampler.ts`. -/
structure DecodedPng where
  width : ℕ
  height : ℕ
  rgba : List ℕ
deriving DecidableEq, Repr, Inhabited

/-- The 8-byte PNG signature checked by `decodePng`. -/
def pngSignature : List ℕ := [137, 80, 78, 71, 13, 10, 26, 10]

/-- `readUInt32` from `core/screenshot-sampler.ts` (big-endian; out-of-range
reads behave like the JS `undefined` coerced to 0 by the shift operators). -/
def readUInt32 (bytes : List ℕ) (offset : ℕ) : ℕ :=
  bytes.getD offset 0 * 2 ^ 24 + bytes.getD (offset + 1) 0 * 2 ^ 16 +
    bytes.getD (offset + 2) 0 * 2 ^ 8 + bytes.getD (offset + 3) 0

def listSlice (l : List ℕ) (start stop : ℕ) : List ℕ :=
  (l.drop start).take (stop - start)

/-- The header/IDAT state accumulated by the chunk-scanning loop of
`decodePng`.  `bitDepth`/`colorType` start at 0 and become `none` when an
IHDR chunk is too short to carry them (JS `data[8]` = `undefined`). -/
structure PngScanState where
  width : ℕ := 0
  height : ℕ := 0
  bitDepth : Option ℕ := some 0
  colorType : Option ℕ := some 0
  idat : List ℕ := []
deriving DecidableEq, Repr, Inhabited

/-- The chunk-scanning `while` loop of `decodePng`: `none` models the early
`return undefined` when a chunk overruns the buffer; scanning stops at IEND
or when fewer than 8 bytes remain.  Each iteration advances the offset by at
least 12, so fuel `bytes.length + 1` dominates the loop. -/
def pngChunkScan (bytes : List ℕ) : ℕ → ℕ → PngScanState → Option PngScanState
  | 0, _, st => some st
  | fuel + 1, offset, st =>
    if bytes.length < offset + 8 then some st
    else
      let chunkLength := readUInt32 bytes offset
      let chunkType := String.mk ((listSlice bytes (offset + 4) (offset + 8)).map Char.ofNat)
      let dataStart := offset + 8
      let dataEnd := dataStart + chunkLength
      let crcEnd := dataEnd + 4
      if bytes.length < crcEnd then none
      else
        let data := listSlice bytes dataStart dataEnd
        if chunkType = "IHDR" then
          pngChunkScan bytes fuel crcEnd
            { st with width := readUInt32 data 0, height := readUInt32 data 4
                      bitDepth := data.get? 8, colorType := data.get? 9 }
        else if chunkType = "IDAT" then
          pngChunkScan bytes fuel crcEnd { st with idat := st.idat ++ data }
        else if chunkType = "IEND" then some st
        else pngChunkScan bytes fuel crcEnd st

/-- `paethPredictor` from `core/screenshot-sampler.ts`. -/
def paethPredictor (a b c : ℕ) : ℕ :=
  let p : ℤ := (a : ℤ) + b - c
  let pa := (p - a).natAbs
  let pb := (p - b).natAbs
  let pc := (p - c).natAbs
  if pa ≤ pb ∧ pa ≤ pc then a
  else if pb ≤ pc then b
  else c

/-- `applyFilter` from `core/screenshot-sampler.ts` (the five standard PNG
scanline filters, modulo 256). -/
def applyFilter (filterType rawByte left up upLeft : ℕ) : ℕ :=
  if filterType = 0 then rawByte
  else if filterType = 1 then (rawByte + left) % 256
  else if filterType = 2 then (rawByte + up) % 256
  else if filterType = 3 then (rawByte + (left + up) / 2) % 256
  else if filterType = 4 then (rawByte + paethPredictor left up upLeft) % 256
  else rawByte

/-- One scanline of the filter-reconstruction loop of `decodePng`, resolved
against already-reconstructed neighbour bytes. -/
def reconRow (raw : List ℕ) (bpp stride y : ℕ) (recon : Array ℕ) : Array ℕ :=
  let srcBase := y * (stride + 1)
  let filterType := raw.getD srcBase 0
  let rowStart := y * stride
  (List.range stride).foldl
    (fun rec x =>
      let rawByte := raw.getD (srcBase + 1 + x) 0
      let left := if bpp ≤ x then rec.getD (rowStart + x - bpp) 0 else 0
      let up := if 0 < y then rec.getD (rowStart - stride + x) 0 else 0
      let upLeft :=
        if 0 < y && bpp ≤ x then rec.getD (rowStart - stride + x - bpp) 0 else 0
      rec.push (applyFilter filterType rawByte left up upLeft))
    recon

def reconstructScanlines (raw : List ℕ) (width height bpp : ℕ) : Array ℕ :=
  let stride := width * bpp
  (List.range height).foldl (fun rec y => reconRow raw bpp stride y rec) #[]

/-- The RGB → RGBA expansion loop of `decodePng`. -/
def rgbToRgba : List ℕ → List ℕ
  | r :: g :: b :: rest => r :: g :: b :: 255 :: rgbToRgba rest
  | _ => []

/-- `decodePng` from `core/screenshot-sampler.ts`.  The `node:zlib`
`inflateSync` primitive is passed in as `inflate`; it throws on an invalid
compressed stream, modelled by `Except.error`, and the source calls it with
no surrounding try/catch, so that error propagates out of `decodePng`.
All structural mismatches (signature, overrunning chunk, zero dimensions,
bit depth ≠ 8, color type outside RGB/RGBA, missing IDAT, short pixel data)
return `Except.ok none`, the embedding of `return undefined`. -/
def decodePng (inflate : List ℕ → Except String (List ℕ)) (bytes : List ℕ) :
    Except String (Option DecodedPng) :=
  if bytes.take 8 ≠ pngSignature then Except.ok none
  else
    match pngChunkScan bytes (bytes.length + 1) 8 {} with
    | none => Except.ok none
    | some st =>
      if st.width = 0 ∨ st.height = 0 ∨ st.bitDepth ≠ some 8 ∨
          (st.colorType ≠ some 6 ∧ st.colorType ≠ some 2) ∨ st.idat.isEmpty then
        Except.ok none
      else
        match inflate st.idat with
        | Except.error e => Except.error e
        | Except.ok raw =>
          let bpp := if st.colorType = some 6 then 4 else 3
          let stride := st.width * bpp
          let expected := st.height * (stride + 1)
          if raw.length < expected then Except.ok none
          else
            let reconstructed := reconstructScanlines raw st.width st.height bpp
            let rgba :=
              if st.colorType = some 6 then reconstructed.toList
              else rgbToRgba reconstructed.toList
            Except.ok (some { width := st.width, height := st.height, rgba := rgba })

/-- `inflateSync` behaviour on an invalid zlib stream: it throws. -/
def throwingInflate : List ℕ → Except String (List ℕ) :=
  fun _ => Except.error "invalid zlib data"

/-- A byte sequence with a valid PNG signature, a well-formed IHDR chunk
(1×1, bit depth 8, color type 6 = RGBA) and a non-empty IDAT chunk whose
payload is not a valid zlib stream. -/
def pngBadZlibBytes : List ℕ :=
  pngSignature ++
    [0, 0, 0, 13] ++ [73, 72, 68, 82] ++
    [0, 0, 0, 1, 0, 0, 0, 1, 8, 6, 0, 0, 0] ++ [0, 0, 0, 0] ++
    [0, 0, 0, 1] ++ [73, 68, 65, 84] ++ [120] ++ [0, 0, 0, 0]

/-! Concrete fixtures used to evaluate the embedding on closed inputs. -/

def witRoot : NormalizedNode :=
  { id := "r", name := "Root", type := "FRAME", fills := [whiteColor] }

def witText : NormalizedNode :=
  { id := "t", name := "Label", type := "TEXT", parentId := some "r"
    fills := [whiteColor] }

def witTarget : NormalizedTarget :=
  { figmaUrl := "u", nodeId := "r", frameName := "F", nodes := [witRoot, witText] }

def witIcon : NormalizedNode :=
  { id := "i", name := "icon-search", type := "RECTANGLE", parentId := some "r"
    fills := [whiteColor] }

def witIconTarget : NormalizedTarget :=
  { figmaUrl := "u", nodeId := "r", frameName := "F", nodes := [witRoot, witIcon] }

def witOrphan : NormalizedNode := { id := "o", name := "Orphan", type := "FRAME" }

def witFallbackTarget : NormalizedTarget :=
  { figmaUrl := "u", nodeId := "o", frameName := "F", nodes := [witOrphan]
    fallbackBackgroundColor := some { r := 10, g := 20, b := 30, a := 1 } }

def witFinding : Finding :=
  { id := "f1", ruleId := "rule-1", wcagCriterion := "1.4.3"
    severity := Severity.critical, status := FindingStatus.failed
    message := "m"
    targetRef := { figmaUrl := "u", nodeId := "n1", frameName := "F" } }

def witSuppression : Suppression :=
  { ruleId := "rule-1", targetId := "*", reason := "known issue", expiresOn := "d" }

/-- A date-parsing primitive that resolves every string to epoch time 0. -/
def witParseDate : String → Option ℤ := fun _ => some 0

/-- A foreground/background token pair passes when the background token is
fully opaque and the pair meets the required ratio. -/
def pairPasses (threshold : ℝ) (q : TokenColor × TokenColor) : Prop :=
  1 ≤ q.2.color.a ∧ threshold ≤ contrastRatio q.1.color q.2.color

/-- The `TokenPair` the search would record for a passing combination. -/
noncomputable def mkTokenPair (foreground background : NormalizedColor)
    (q : TokenColor × TokenColor) : TokenPair :=
  { foreground := q.1, background := q.2
    ratio := contrastRatio q.1.color q.2.color
    distance := rgbDistance q.1.color foreground + rgbDistance q.2.color background }

/-- All foreground × background combinations, in loop order. -/
def tokenPairs (tokenColors : List TokenColor) : List (TokenColor × TokenColor) :=
  tokenColors.flatMap (fun f => tokenColors.map (fun b => (f, b)))

/-- The invariant maintained by the pair-search fold over the combinations
seen so far: `none` means no combination passed, and a recorded pair is a
passing seen combination of minimal summed distance, ties broken by the
higher ratio. -/
def PairSearchInv (foreground background : NormalizedColor) (threshold : ℝ)
    (seen : List (TokenColor × TokenColor)) (best : Option TokenPair) : Prop :=
  (best = none → ∀ q ∈ seen, ¬ pairPasses threshold q) ∧
  (∀ p, best = some p →
    (∃ q ∈ seen, pairPasses threshold q ∧ p = mkTokenPair foreground background q) ∧
    (∀ q ∈ seen, pairPasses threshold q →
      p.distance ≤ (mkTokenPair foreground background q).distance ∧
      (p.distance = (mkTokenPair foreground background q).distance →
        (mkTokenPair foreground background q).ratio ≤ p.ratio)))

/-- Specification-side opaque-base search: scan the overlay candidates from
the furthest (highest index) inward and return the first index whose
candidate has alpha ≥ 0.999. -/
def specOpaqueBase (overlays : List Overlay) : Option ℕ :=
  ((List.range overlays.length).reverse).find?
    (fun i => decide ((0.999 : ℚ) ≤ (overlays.getD i default).color.a))

/-- The validity test actually implemented by `applySuppressions`: non-blank
reason, parseable expiry, and expiry *not earlier than* the run time (an
expiry exactly equal to `now` is accepted). -/
def suppressionValid (parseDate : String → Option ℤ) (nowMs : ℤ) (s : Suppression) :
    Bool :=
  !(strTrim s.reason = "") &&
    (match parseDate s.expiresOn with
     | none => false
     | some expiry => !(expiry < nowMs))

/-! Theorems. -/

theorem srgbChannel_zero : srgbChannel 0 = 0 := by
  unfold srgbChannel
  norm_num

theorem srgbChannel_255 : srgbChannel 255 = 1 := by
  unfold srgbChannel
  rw [if_neg (by norm_num)]
  norm_num [Real.one_rpow]

theorem luminance_white : luminance whiteColor = 1 := by
  unfold luminance whiteColor
  rw [srgbChannel_255]
  norm_num

theorem luminance_black : luminance blackColor = 0 := by
  unfold luminance blackColor
  rw [srgbChannel_zero]
  norm_num

theorem flattenAlpha_white_white : flattenAlpha whiteColor whiteColor = whiteColor := by
  decide

theorem contrastRatio_white_white : contrastRatio whiteColor whiteColor = 1 := by
  simp only [contrastRatio, flattenAlpha_white_white, luminance_white]
  norm_num

theorem contrastRatio_black_white : contrastRatio blackColor whiteColor = 21 := by
  have hfl : flattenAlpha blackColor whiteColor = blackColor := by decide
  simp only [contrastRatio, hfl, luminance_black, luminance_white]
  norm_num

/-- C9: `shouldFailBuild` returns `true` exactly when some finding has status
`failed`, carries no `suppressed` annotation, and has a severity contained in
the configured gate set; suppressed findings and needs-manual-review findings
therefore never trigger the gate. -/
theorem shouldFailBuild_iff (findings : List Finding) (failOn : List Severity) :
    shouldFailBuild findings failOn = true ↔
      ∃ f ∈ findings, f.status = FindingStatus.failed ∧ f.suppressed = none ∧
        f.severity ∈ failOn := by
  unfold shouldFailBuild
  simp [List.any_eq_true, Option.isNone_iff_eq_none, and_assoc]

/-- C5 (divergence witness): on a byte sequence with a valid PNG signature,
a well-formed 8-bit RGBA IHDR and a non-empty IDAT whose payload is not a
valid zlib stream, `decodePng` propagates the `inflateSync` exception to its
caller instead of returning none — the source calls `inflateSync` with no
try/catch, contradicting the documented "sampler silently unavailable"
behaviour for malformed rasters. -/
theorem decodePng_throws_on_invalid_zlib :
    decodePng throwingInflate pngBadZlibBytes = Except.error "invalid zlib data" := by
  rfl

theorem boundsCover_of_none (backgroundNode node : NormalizedNode) (ctx : BoundsContext)
    (h : backgroundNode.bounds = none ∨ node.bounds = none) :
    boundsCover backgroundNode node ctx = true := by
  unfold boundsCover
  rcases h with h | h
  · rw [h]
    cases node.bounds <;> rfl
  · rw [h]
    cases backgroundNode.bounds <;> rfl

/-- C10: in the background resolver's coverage test a missing rectangle on
either side counts as full coverage, and consequently an ancestor reached by
the walk that has a visible (non-text-gated) fill but no bounds is pushed as
an overlay candidate rather than counted as skipped by coverage. -/
theorem boundsCover_missing_bounds_accepts :
    (∀ (backgroundNode node : NormalizedNode) (ctx : BoundsContext),
      backgroundNode.bounds = none ∨ node.bounds = none →
        boundsCover backgroundNode node ctx = true) ∧
    (∀ (target : NormalizedTarget) (subject : NormalizedNode) (ctx : BoundsContext)
        (fuel : ℕ) (visited : List String) (current parent : NormalizedNode)
        (overlays : List Overlay) (skipped : ℕ) (pid : String) (c : NormalizedColor),
      current.parentId = some pid → pid ∉ visited →
      mapGet target.nodes pid = some parent →
      isTextualNode parent = false → firstVisibleColor parent.fills = some c →
      parent.bounds = none →
      collectOverlaysAux target subject ctx (fuel + 1) visited current overlays skipped =
        collectOverlaysAux target subject ctx fuel (pid :: visited) parent
          ((match resolveSiblingOverlay target ctx current subject with
            | some o => overlays ++ [o]
            | none => overlays) ++
            [{ color := c, path := layerPathForNode target parent }])
          skipped) := by
  constructor
  · exact boundsCover_of_none
  · intro target subject ctx fuel visited current parent overlays skipped pid c
      hpid hvis hmap htext hfill hbounds
    have hcover : boundsCover parent subject ctx = true :=
      boundsCover_of_none parent subject ctx (Or.inl hbounds)
    simp only [collectOverlaysAux, hpid, hmap]
    rw [if_neg hvis]
    simp only [htext, Bool.false_eq_true, if_false, hfill, hcover, if_true]

/-- C8: `mergeNodesById` merges records sharing an id into a single node,
preferring the longer non-empty name and type, the already-known parent and
bounds, a non-empty fills/strokes list, and OR-ing the interactivity flags. -/
theorem mergeNodesById_merges_duplicates :
    (∀ a b : NormalizedNode, a.id = b.id → mergeNodesById [a, b] = [mergeTwo a b]) ∧
    (∀ a b : NormalizedNode,
      ((mergeTwo a b).name = a.name ∨ (mergeTwo a b).name = b.name) ∧
      ((a.name ≠ "" ∨ b.name ≠ "") → (mergeTwo a b).name ≠ "") ∧
      (a.name ≠ "" → b.name ≠ "" →
        (mergeTwo a b).name.length = Max.max a.name.length b.name.length) ∧
      ((mergeTwo a b).type = a.type ∨ (mergeTwo a b).type = b.type) ∧
      ((a.type ≠ "" ∨ b.type ≠ "") → (mergeTwo a b).type ≠ "") ∧
      (a.type ≠ "" → b.type ≠ "" →
        (mergeTwo a b).type.length = Max.max a.type.length b.type.length) ∧
      (a.parentId.isSome = true → (mergeTwo a b).parentId = a.parentId) ∧
      (a.parentId = none → (mergeTwo a b).parentId = b.parentId) ∧
      (a.bounds.isSome = true → (mergeTwo a b).bounds = a.bounds) ∧
      (a.bounds = none → (mergeTwo a b).bounds = b.bounds) ∧
      ((mergeTwo a b).fills = a.fills ∨ (mergeTwo a b).fills = b.fills) ∧
      ((mergeTwo a b).fills = [] → a.fills = [] ∧ b.fills = []) ∧
      ((mergeTwo a b).strokes = a.strokes ∨ (mergeTwo a b).strokes = b.strokes) ∧
      ((mergeTwo a b).strokes = [] → a.strokes = [] ∧ b.strokes = []) ∧
      ((mergeTwo a b).isInteractive = (a.isInteractive || b.isInteractive))) := by
  constructor
  · intro a b h
    simp [mergeNodesById, insertMerged, h]
  · intro a b
    refine ⟨?_, ?_, ?_, ?_, ?_, ?_, ?_, ?_, ?_, ?_, ?_, ?_, ?_, ?_, ?_⟩ <;>
      simp only [mergeTwo, richerString]
    · split_ifs <;> simp_all
    · intro h
      split_ifs <;> simp_all
    · intro ha hb
      split_ifs <;> simp_all <;> omega
    · split_ifs <;> simp_all
    · intro h
      split_ifs <;> simp_all
    · intro ha hb
      split_ifs <;> simp_all <;> omega
    · intro h
      cases hp : a.parentId <;> simp_all [Option.orElse]
    · intro h
      simp_all [Option.orElse]
    · intro h
      cases hp : a.bounds <;> simp_all [Option.orElse]
    · intro h
      simp_all [Option.orElse]
    · split_ifs <;> simp_all
    · split_ifs <;> simp_all
    · split_ifs <;> simp_all
    · split_ifs <;> simp_all

/-- Witness for C10 at a concrete target: the bounds-free root ancestor of a
text node is accepted as an overlay candidate. -/
theorem boundsCover_missing_bounds_accepts_witness :
    (witRoot.bounds = none ∨ witText.bounds = none) ∧
      boundsCover witRoot witText (buildBoundsContext witTarget) = true ∧
      (witText.parentId = some "r" ∧ ("r" : String) ∉ ([] : List String) ∧
        mapGet witTarget.nodes "r" = some witRoot ∧ isTextualNode witRoot = false ∧
        firstVisibleColor witRoot.fills = some whiteColor ∧ witRoot.bounds = none) ∧
      collectOverlaysAux witTarget witText (buildBoundsContext witTarget) 3 [] witText [] 0 =
        collectOverlaysAux witTarget witText (buildBoundsContext witTarget) 2 ["r"] witRoot
          ((match resolveSiblingOverlay witTarget (buildBoundsContext witTarget) witText witText with
            | some o => [o]
            | none => []) ++
            [{ color := whiteColor, path := layerPathForNode witTarget witRoot }]) 0 := by
  refine ⟨Or.inl rfl, ?_, ⟨rfl, by decide, by decide, by decide, by decide, rfl⟩, ?_⟩
  · exact boundsCover_missing_bounds_accepts.1 witRoot witText _ (Or.inl rfl)
  · have h := boundsCover_missing_bounds_accepts.2 witTarget witText
      (buildBoundsContext witTarget) 2 [] witText witRoot [] 0 "r" whiteColor
      rfl (by decide) (by decide) (by decide) (by decide) rfl
    simpa using h

theorem findBestTokenPair_eq_fold (tokenColors : List TokenColor)
    (foreground background : NormalizedColor) (threshold : ℝ) :
    findBestTokenPair tokenColors foreground background threshold =
      (tokenPairs tokenColors).foldl
        (fun best q => pairStep foreground background threshold best q.1 q.2) none := by
  unfold findBestTokenPair tokenPairs
  suffices h : ∀ (outer : List TokenColor) (init : Option TokenPair),
      outer.foldl (fun best fgToken => tokenColors.foldl
        (fun b bgToken => pairStep foreground background threshold b fgToken bgToken)
        best) init =
      (outer.flatMap (fun f => tokenColors.map (fun b => (f, b)))).foldl
        (fun best q => pairStep foreground background threshold best q.1 q.2) init by
    exact h tokenColors none
  intro outer
  induction outer with
  | nil => intro init; rfl
  | cons x rest ih =>
    intro init
    simp only [List.foldl_cons, List.flatMap_cons, List.foldl_append, List.foldl_map]
    exact ih _

theorem pairStep_inv (foreground background : NormalizedColor) (threshold : ℝ)
    (seen : List (TokenColor × TokenColor)) (best : Option TokenPair)
    (q : TokenColor × TokenColor)
    (h : PairSearchInv foreground background threshold seen best) :
    PairSearchInv foreground background threshold (seen ++ [q])
      (pairStep foreground background threshold best q.1 q.2) := by
  obtain ⟨hnone, hsome⟩ := h
  have hkeep : ¬ pairPasses threshold q →
      PairSearchInv foreground background threshold (seen ++ [q]) best := by
    intro hfail
    constructor
    · intro hb q' hq'
      rcases List.mem_append.mp hq' with hq' | hq'
      · exact hnone hb q' hq'
      · rw [List.mem_singleton.mp hq']
        exact hfail
    · intro p hp
      obtain ⟨⟨q0, hq0, hq0p⟩, hmin⟩ := hsome p hp
      refine ⟨⟨q0, List.mem_append_left _ hq0, hq0p⟩, ?_⟩
      intro q' hq' hpass
      rcases List.mem_append.mp hq' with hq' | hq'
      · exact hmin q' hq' hpass
      · rw [List.mem_singleton.mp hq'] at hpass
        exact absurd hpass hfail
  unfold pairStep
  by_cases ha : q.2.color.a < 1
  · rw [if_pos ha]
    exact hkeep (fun hp => absurd hp.1 (not_le.mpr ha))
  · rw [if_neg ha]
    by_cases hr : contrastRatio q.1.color q.2.color < threshold
    · rw [if_pos hr]
      exact hkeep (fun hp => absurd hp.2 (not_le.mpr hr))
    · rw [if_neg hr]
      have hpassq : pairPasses threshold q := ⟨not_lt.mp ha, not_lt.mp hr⟩
      have hqmem : q ∈ seen ++ [q] := List.mem_append_right _ (List.mem_singleton.mpr rfl)
      have hmk : (mkTokenPair foreground background q).distance =
          rgbDistance q.1.color foreground + rgbDistance q.2.color background := rfl
      cases best with
      | none =>
        show PairSearchInv foreground background threshold (seen ++ [q])
          (some (mkTokenPair foreground background q))
        constructor
        · intro hb
          exact absurd hb (by simp)
        · intro p hp
          obtain rfl : p = mkTokenPair foreground background q := (Option.some.inj hp).symm
          refine ⟨⟨q, hqmem, hpassq, rfl⟩, ?_⟩
          intro q' hq' hpass
          rcases List.mem_append.mp hq' with hq' | hq'
          · exact absurd hpass (hnone rfl q' hq')
          · rw [List.mem_singleton.mp hq']
            exact ⟨le_refl _, fun _ => le_refl _⟩
      | some b =>
        obtain ⟨⟨q0, hq0, hq0p⟩, hmin⟩ := hsome b rfl
        show PairSearchInv foreground background threshold (seen ++ [q])
          (if rgbDistance q.1.color foreground + rgbDistance q.2.color background <
              b.distance ∨
              (rgbDistance q.1.color foreground + rgbDistance q.2.color background =
                b.distance ∧ b.ratio < contrastRatio q.1.color q.2.color) then
            some (mkTokenPair foreground background q)
          else some b)
        by_cases hrepl : rgbDistance q.1.color foreground +
            rgbDistance q.2.color background < b.distance ∨
            (rgbDistance q.1.color foreground + rgbDistance q.2.color background =
              b.distance ∧ b.ratio < contrastRatio q.1.color q.2.color)
        · rw [if_pos hrepl]
          constructor
          · intro hb
            exact absurd hb (by simp)
          · intro p hp
            obtain rfl : p = mkTokenPair foreground background q := (Option.some.inj hp).symm
            refine ⟨⟨q, hqmem, hpassq, rfl⟩, ?_⟩
            intro q' hq' hpass
            rcases List.mem_append.mp hq' with hq' | hq'
            · have hold := hmin q' hq' hpass
              rcases hrepl with hlt | ⟨heq, hgt⟩
              · constructor
                · calc (mkTokenPair foreground background q).distance
                      ≤ b.distance := by rw [hmk]; exact le_of_lt hlt
                    _ ≤ (mkTokenPair foreground background q').distance := hold.1
                · intro heq'
                  have hlt' : (mkTokenPair foreground background q).distance <
                      (mkTokenPair foreground background q').distance :=
                    lt_of_lt_of_le (by rw [hmk]; exact hlt) hold.1
                  rw [heq'] at hlt'
                  exact absurd rfl (ne_of_lt hlt')
              · constructor
                · rw [hmk, heq]
                  exact hold.1
                · intro heq'
                  rw [hmk, heq] at heq'
                  calc (mkTokenPair foreground background q').ratio
                      ≤ b.ratio := hold.2 heq'
                    _ ≤ (mkTokenPair foreground background q).ratio := le_of_lt hgt
            · rw [List.mem_singleton.mp hq']
              exact ⟨le_refl _, fun _ => le_refl _⟩
        · rw [if_neg hrepl]
          push_neg at hrepl
          obtain ⟨hge, hratio⟩ := hrepl
          constructor
          · intro hb
            exact absurd hb (by simp)
          · intro p hp
            obtain rfl : p = b := (Option.some.inj hp).symm
            refine ⟨⟨q0, List.mem_append_left _ hq0, hq0p⟩, ?_⟩
            intro q' hq' hpass
            rcases List.mem_append.mp hq' with hq' | hq'
            · exact hmin q' hq' hpass
            · rw [List.mem_singleton.mp hq']
              constructor
              · rw [hmk]
                exact hge
              · intro heq'
                rw [hmk] at heq'
                exact hratio heq'.symm

theorem pairFold_inv (foreground background : NormalizedColor) (threshold : ℝ) :
    ∀ (l seen : List (TokenColor × TokenColor)) (best : Option TokenPair),
      PairSearchInv foreground background threshold seen best →
      PairSearchInv foreground background threshold (seen ++ l)
        (l.foldl (fun b q => pairStep foreground background threshold b q.1 q.2) best)
  | [], seen, best, h => by simpa using h
  | q :: rest, seen, best, h => by
    have h1 := pairStep_inv foreground background threshold seen best q h
    have h2 := pairFold_inv foreground background threshold rest (seen ++ [q]) _ h1
    simpa [List.append_assoc] using h2

theorem findBestTokenPair_inv (tokenColors : List TokenColor)
    (foreground background : NormalizedColor) (threshold : ℝ) :
    PairSearchInv foreground background threshold (tokenPairs tokenColors)
      (findBestTokenPair tokenColors foreground background threshold) := by
  rw [findBestTokenPair_eq_fold]
  have h := pairFold_inv foreground background threshold (tokenPairs tokenColors) [] none
    ⟨fun _ q hq => absurd hq (List.not_mem_nil q), fun p hp => by cases hp⟩
  simpa using h

theorem mem_insertSorted {α : Type} (le : α → α → Bool) (x y : α) :
    ∀ l : List α, y ∈ insertSorted le x l ↔ y = x ∨ y ∈ l
  | [] => by simp [insertSorted]
  | z :: zs => by
    simp only [insertSorted]
    by_cases h : le x z
    · simp [h]
    · rw [if_neg h]
      simp only [List.mem_cons, mem_insertSorted le x y zs]
      tauto

theorem mem_insertionSort {α : Type} (le : α → α → Bool) :
    ∀ (l : List α) (y : α), y ∈ insertionSort le l ↔ y ∈ l
  | [], y => Iff.rfl
  | x :: xs, y => by
    simp only [insertionSort, mem_insertSorted, mem_insertionSort le xs y, List.mem_cons]

theorem findBestBackgroundReplacement_mem (tokenColors : List TokenColor)
    (foreground background : NormalizedColor) (threshold : ℝ) (c : Candidate)
    (h : findBestBackgroundReplacement tokenColors foreground background threshold =
      some c) :
    1 ≤ c.color.a ∧ threshold ≤ c.ratio := by
  unfold findBestBackgroundReplacement at h
  have hmem := List.mem_of_mem_head? h
  rw [mem_insertionSort, List.mem_filterMap] at hmem
  obtain ⟨tc, _, htc⟩ := hmem
  by_cases ha : tc.color.a < 1
  · rw [if_pos ha] at htc
    cases htc
  · rw [if_neg ha] at htc
    by_cases hr : contrastRatio foreground tc.color < threshold
    · rw [if_pos hr] at htc
      cases htc
    · rw [if_neg hr] at htc
      obtain rfl : c = _ := (Option.some.inj htc).symm
      exact ⟨not_lt.mp ha, not_lt.mp hr⟩

theorem filterMap_opaque_filter {β : Type} (f : TokenColor → Option β) :
    ∀ l : List TokenColor, (∀ tc, tc.color.a < 1 → f tc = none) →
      l.filterMap f =
        (l.filter (fun tc => decide ((1 : ℚ) ≤ tc.color.a))).filterMap f
  | [], _ => rfl
  | x :: rest, hf => by
    rw [List.filterMap_cons, List.filter_cons]
    by_cases ha : (1 : ℚ) ≤ x.color.a
    · rw [if_pos (decide_eq_true ha), List.filterMap_cons]
      cases hfx : f x <;>
        simp [hfx, filterMap_opaque_filter f rest hf]
    · rw [if_neg (by simp [ha]), hf x (not_le.mp ha)]
      exact filterMap_opaque_filter f rest hf

theorem findBestBackgroundReplacement_filter (tokenColors : List TokenColor)
    (foreground background : NormalizedColor) (threshold : ℝ) :
    findBestBackgroundReplacement tokenColors foreground background threshold =
      findBestBackgroundReplacement
        (tokenColors.filter (fun tc => decide ((1 : ℚ) ≤ tc.color.a)))
        foreground background threshold := by
  simp only [findBestBackgroundReplacement]
  rw [filterMap_opaque_filter]
  intro tc h
  rw [if_pos h]

theorem pairInner_filter (foreground background : NormalizedColor) (threshold : ℝ)
    (fgToken : TokenColor) :
    ∀ (l : List TokenColor) (init : Option TokenPair),
      l.foldl (fun b bgToken => pairStep foreground background threshold b fgToken bgToken)
        init =
      (l.filter (fun tc => decide ((1 : ℚ) ≤ tc.color.a))).foldl
        (fun b bgToken => pairStep foreground background threshold b fgToken bgToken) init
  | [], _ => rfl
  | x :: rest, init => by
    rw [List.foldl_cons, List.filter_cons]
    by_cases ha : (1 : ℚ) ≤ x.color.a
    · rw [if_pos (decide_eq_true ha), List.foldl_cons]
      exact pairInner_filter foreground background threshold fgToken rest _
    · rw [if_neg (by simp [ha])]
      have hstep : pairStep foreground background threshold init fgToken x = init := by
        unfold pairStep
        rw [if_pos (not_le.mp ha)]
      rw [hstep]
      exact pairInner_filter foreground background threshold fgToken rest init

theorem findBestTokenPair_filter (tokenColors : List TokenColor)
    (foreground background : NormalizedColor) (threshold : ℝ) :
    findBestTokenPair tokenColors foreground background threshold =
      tokenColors.foldl (fun best fgToken =>
        (tokenColors.filter (fun tc => decide ((1 : ℚ) ≤ tc.color.a))).foldl
          (fun b bgToken => pairStep foreground background threshold b fgToken bgToken)
          best) none := by
  unfold findBestTokenPair
  suffices h : ∀ (outer : List TokenColor) (init : Option TokenPair),
      outer.foldl (fun best fgToken => tokenColors.foldl
        (fun b bgToken => pairStep foreground background threshold b fgToken bgToken)
        best) init =
      outer.foldl (fun best fgToken =>
        (tokenColors.filter (fun tc => decide ((1 : ℚ) ≤ tc.color.a))).foldl
          (fun b bgToken => pairStep foreground background threshold b fgToken bgToken)
          best) init by
    exact h tokenColors none
  intro outer
  induction outer with
  | nil => intro init; rfl
  | cons x rest ih =>
    intro init
    simp only [List.foldl_cons]
    rw [pairInner_filter]
    exact ih _

theorem filterMap_none_of_all {α β : Type} (f : α → Option β) (l : List α)
    (h : ∀ a ∈ l, f a = none) : l.filterMap f = [] :=
  List.filterMap_eq_nil.mpr h

theorem findForegroundCandidates_nil (tokenColors : List TokenColor)
    (foreground background : NormalizedColor) (threshold : ℝ)
    (h : ∀ tc ∈ tokenColors, contrastRatio tc.color background < threshold) :
    findForegroundCandidates tokenColors foreground background threshold = [] := by
  simp only [findForegroundCandidates]
  rw [filterMap_none_of_all]
  · rfl
  · intro tc htc
    simp [h tc htc]

theorem findBestBackgroundReplacement_none (tokenColors : List TokenColor)
    (foreground background : NormalizedColor) (threshold : ℝ)
    (h : ∀ tc ∈ tokenColors, 1 ≤ tc.color.a →
      contrastRatio foreground tc.color < threshold) :
    findBestBackgroundReplacement tokenColors foreground background threshold = none := by
  simp only [findBestBackgroundReplacement]
  rw [filterMap_none_of_all]
  · rfl
  · intro tc htc
    by_cases ha : tc.color.a < 1
    · simp [ha]
    · simp [ha, h tc htc (not_lt.mp ha)]

theorem findBestTokenPair_none (tokenColors : List TokenColor)
    (foreground background : NormalizedColor) (threshold : ℝ)
    (h : ∀ f ∈ tokenColors, ∀ b ∈ tokenColors, 1 ≤ b.color.a →
      contrastRatio f.color b.color < threshold) :
    findBestTokenPair tokenColors foreground background threshold = none := by
  have hinv := findBestTokenPair_inv tokenColors foreground background threshold
  cases hb : findBestTokenPair tokenColors foreground background threshold with
  | none => rfl
  | some p =>
    obtain ⟨⟨q, hq, hpass, _⟩, _⟩ := hinv.2 p hb
    rw [tokenPairs, List.mem_flatMap] at hq
    obtain ⟨f, hf, hq2⟩ := hq
    rw [List.mem_map] at hq2
    obtain ⟨b, hbm, rfl⟩ := hq2
    exact absurd hpass.2 (not_le.mpr (h f hf b hbm hpass.1))

/-- C7 (counterexample): with no palette at all, no candidate of any kind
passes the threshold, yet the recommender returns `none` — the recommendation
is silently omitted instead of the explicit "no token meets threshold"
message, which is only produced when at least one token parsed. -/
theorem recommend_silent_on_missing_palette :
    recommendDesignSystemColorsForContrast trivialPrims none whiteColor whiteColor 3 =
      none := rfl

/-- C7 (amended): the best-background search and the joint pair search
consider only fully opaque background tokens (each is unchanged by removing
non-opaque tokens from the background pool, and any result has an opaque
background); the pair search is exhaustive over all foreground ×
opaque-background combinations meeting the ratio, minimising the summed RGB
distance to the two originals with ties broken by the higher ratio; and when
the palette parsed to at least one token and no candidate of any kind passes
the threshold, the explicit "no token meets threshold" message is returned
(with no parseable token the recommendation is omitted as `none`). -/
theorem recommendDesignSystemColors_search_properties :
    (∀ (tokenColors : List TokenColor) (fg bg : NormalizedColor) (t : ℝ)
        (c : Candidate),
      findBestBackgroundReplacement tokenColors fg bg t = some c →
        1 ≤ c.color.a ∧ t ≤ c.ratio) ∧
    (∀ (tokenColors : List TokenColor) (fg bg : NormalizedColor) (t : ℝ),
      findBestBackgroundReplacement tokenColors fg bg t =
        findBestBackgroundReplacement
          (tokenColors.filter (fun tc => decide ((1 : ℚ) ≤ tc.color.a))) fg bg t) ∧
    (∀ (tokenColors : List TokenColor) (fg bg : NormalizedColor) (t : ℝ),
      findBestTokenPair tokenColors fg bg t =
        tokenColors.foldl (fun best fgToken =>
          (tokenColors.filter (fun tc => decide ((1 : ℚ) ≤ tc.color.a))).foldl
            (fun b bgToken => pairStep fg bg t b fgToken bgToken) best) none) ∧
    (∀ (tokenColors : List TokenColor) (fg bg : NormalizedColor) (t : ℝ)
        (p : TokenPair),
      findBestTokenPair tokenColors fg bg t = some p →
        p.foreground ∈ tokenColors ∧ p.background ∈ tokenColors ∧
        1 ≤ p.background.color.a ∧ t ≤ p.ratio ∧
        p.ratio = contrastRatio p.foreground.color p.background.color ∧
        p.distance = rgbDistance p.foreground.color fg +
          rgbDistance p.background.color bg ∧
        (∀ fgT ∈ tokenColors, ∀ bgT ∈ tokenColors, 1 ≤ bgT.color.a →
          t ≤ contrastRatio fgT.color bgT.color →
          p.distance ≤ rgbDistance fgT.color fg + rgbDistance bgT.color bg ∧
          (p.distance = rgbDistance fgT.color fg + rgbDistance bgT.color bg →
            contrastRatio fgT.color bgT.color ≤ p.ratio))) ∧
    (∀ (tokenColors : List TokenColor) (fg bg : NormalizedColor) (t : ℝ),
      (∃ fgT ∈ tokenColors, ∃ bgT ∈ tokenColors,
        1 ≤ bgT.color.a ∧ t ≤ contrastRatio fgT.color bgT.color) →
      (findBestTokenPair tokenColors fg bg t).isSome = true) ∧
    (∀ (P : JsPrims) (entries : List (String × String)) (fg bg : NormalizedColor)
        (t : ℝ),
      parseTokenColors entries ≠ [] →
      (∀ tc ∈ parseTokenColors entries, contrastRatio tc.color bg < t) →
      (∀ tc ∈ parseTokenColors entries, 1 ≤ tc.color.a →
        contrastRatio fg tc.color < t) →
      (∀ f ∈ parseTokenColors entries, ∀ b ∈ parseTokenColors entries,
        1 ≤ b.color.a → contrastRatio f.color b.color < t) →
      recommendDesignSystemColorsForContrast P (some entries) fg bg t =
        some (noTokenMessage P t)) := by
  have hpairmem : ∀ (tokenColors : List TokenColor) (q : TokenColor × TokenColor),
      q ∈ tokenPairs tokenColors → q.1 ∈ tokenColors ∧ q.2 ∈ tokenColors := by
    intro tokenColors q hq
    rw [tokenPairs, List.mem_flatMap] at hq
    obtain ⟨f, hf, hq2⟩ := hq
    rw [List.mem_map] at hq2
    obtain ⟨b, hbm, rfl⟩ := hq2
    exact ⟨hf, hbm⟩
  refine ⟨fun tc fg bg t c h => findBestBackgroundReplacement_mem tc fg bg t c h,
    fun tc fg bg t => findBestBackgroundReplacement_filter tc fg bg t,
    fun tc fg bg t => findBestTokenPair_filter tc fg bg t, ?_, ?_, ?_⟩
  · intro tokenColors fg bg t p hp
    have hinv := findBestTokenPair_inv tokenColors fg bg t
    obtain ⟨⟨q, hq, hpass, hpq⟩, hmin⟩ := hinv.2 p hp
    obtain ⟨hq1, hq2⟩ := hpairmem tokenColors q hq
    subst hpq
    refine ⟨hq1, hq2, hpass.1, hpass.2, rfl, rfl, ?_⟩
    intro fgT hfgT bgT hbgT hop hrat
    have hqmem : (fgT, bgT) ∈ tokenPairs tokenColors := by
      rw [tokenPairs, List.mem_flatMap]
      exact ⟨fgT, hfgT, List.mem_map.mpr ⟨bgT, hbgT, rfl⟩⟩
    have h := hmin (fgT, bgT) hqmem ⟨hop, hrat⟩
    exact h
  · intro tokenColors fg bg t ⟨fgT, hfgT, bgT, hbgT, hop, hrat⟩
    have hinv := findBestTokenPair_inv tokenColors fg bg t
    cases hb : findBestTokenPair tokenColors fg bg t with
    | none =>
      have hqmem : (fgT, bgT) ∈ tokenPairs tokenColors := by
        rw [tokenPairs, List.mem_flatMap]
        exact ⟨fgT, hfgT, List.mem_map.mpr ⟨bgT, hbgT, rfl⟩⟩
      exact absurd ⟨hop, hrat⟩ (hinv.1 hb (fgT, bgT) hqmem)
    | some p => rfl
  · intro P entries fg bg t hne h1 h2 h3
    have hentries : entries ≠ [] := by
      intro he
      exact hne (by rw [he]; rfl)
    have hee : entries.isEmpty = false := by
      rw [List.isEmpty_eq_false]
      exact hentries
    have hte : (parseTokenColors entries).isEmpty = false := by
      rw [List.isEmpty_eq_false]
      exact hne
    unfold recommendDesignSystemColorsForContrast
    simp only [hee, hte, Bool.false_eq_true, if_false]
    rw [findForegroundCandidates_nil _ _ _ _ h1,
      findBestBackgroundReplacement_none _ _ _ _ h2, findBestTokenPair_none _ _ _ _ h3]
    rfl

/-- Witness for C7 (amended): a single white token against a white
foreground/background pair passes nothing at 3:1, and the explicit message is
returned. -/
theorem recommendDesignSystemColors_search_properties_witness :
    parseTokenColors [("w", "#FFFFFF")] ≠ [] ∧
      recommendDesignSystemColorsForContrast trivialPrims (some [("w", "#FFFFFF")])
        whiteColor whiteColor 3 = some (noTokenMessage trivialPrims 3) := by
  have hparse : parseTokenColors [("w", "#FFFFFF")] =
      [{ token := "w", hex := "#FFFFFF", color := whiteColor }] := by decide
  have hne : parseTokenColors [("w", "#FFFFFF")] ≠ [] := by
    rw [hparse]
    exact List.cons_ne_nil _ _
  have hlt : contrastRatio whiteColor whiteColor < 3 := by
    rw [contrastRatio_white_white]
    norm_num
  refine ⟨hne, ?_⟩
  refine recommendDesignSystemColors_search_properties.2.2.2.2.2 trivialPrims
    [("w", "#FFFFFF")] whiteColor whiteColor 3 hne ?_ ?_ ?_
  · intro tc htc
    rw [hparse, List.mem_singleton] at htc
    subst htc
    exact hlt
  · intro tc htc _
    rw [hparse, List.mem_singleton] at htc
    subst htc
    exact hlt
  · intro f hf b hb _
    rw [hparse, List.mem_singleton] at hf
    rw [hparse, List.mem_singleton] at hb
    subst hf
    subst hb
    exact hlt

/-- C3: the text-contrast rule classifies large text as claimed
(`isLargeText(24,400)`, `isLargeText(18,700)`, `isLargeText(18.5,700)`), and
for every text-bearing node it emits a failed finding exactly when the
contrast ratio of the acquired colors is below the required threshold
(3 for large text, 4.5 otherwise); when the foreground or background color
cannot be determined it emits a needs-manual-review finding instead of a
hard failure. -/
theorem evaluateTextContrast_thresholds :
    (isLargeText (some 24) (some 400) = true ∧
      isLargeText (some 18) (some 700) = false ∧
      isLargeText (some (18.5 : ℚ)) (some 700) = true) ∧
    (∀ (P : JsPrims) sampleBg sampleFg designSystemColors
        (target : NormalizedTarget) (node : NormalizedNode),
      (((textRuleColors sampleBg sampleFg target node).fg = none ∨
          (textRuleColors sampleBg sampleFg target node).bg = none) →
        ∃ f, textContrastFindingForNode P sampleBg sampleFg designSystemColors target node =
            some f ∧ f.status = FindingStatus.needsManualReview) ∧
      (∀ F B, (textRuleColors sampleBg sampleFg target node).fg = some F →
        (textRuleColors sampleBg sampleFg target node).bg = some B →
        ((∃ f, textContrastFindingForNode P sampleBg sampleFg designSystemColors target node =
            some f ∧ f.status = FindingStatus.failed) ↔
          contrastRatio F B < requiredTextThreshold node) ∧
        (∀ f, textContrastFindingForNode P sampleBg sampleFg designSystemColors target node =
          some f → f.status = FindingStatus.failed))) := by
  refine ⟨⟨by decide, by decide, by decide⟩, ?_⟩
  intro P sampleBg sampleFg designSystemColors target node
  constructor
  · intro hmiss
    cases hfg : (textRuleColors sampleBg sampleFg target node).fg with
    | none =>
      simp only [textContrastFindingForNode, hfg]
      cases hbg : (textRuleColors sampleBg sampleFg target node).bg <;>
        exact ⟨_, rfl, rfl⟩
    | some F =>
      have hbg : (textRuleColors sampleBg sampleFg target node).bg = none := by
        rcases hmiss with h | h
        · rw [hfg] at h
          cases h
        · exact h
      simp only [textContrastFindingForNode, hfg, hbg]
      exact ⟨_, rfl, rfl⟩
  · intro F B hfg hbg
    simp only [textContrastFindingForNode, hfg, hbg]
    by_cases hr : requiredTextThreshold node ≤ contrastRatio F B
    · rw [if_pos hr]
      constructor
      · constructor
        · rintro ⟨f, hf, _⟩
          cases hf
        · intro hlt
          exact absurd hr (not_le.mpr hlt)
      · intro f hf
        cases hf
    · rw [if_neg hr]
      exact ⟨⟨fun _ => not_le.mp hr, fun _ => ⟨_, rfl, rfl⟩⟩, fun f hf => by
        cases hf
        rfl⟩

/-- Witness for C3: a white text node over a white opaque background is a
failed finding (contrast ratio 1 below the 4.5 threshold for normal text). -/
theorem evaluateTextContrast_thresholds_witness :
    (textRuleColors none none witTarget witText).fg = some whiteColor ∧
      (textRuleColors none none witTarget witText).bg = some whiteColor ∧
      ∃ f, textContrastFindingForNode trivialPrims none none none witTarget witText =
        some f ∧ f.status = FindingStatus.failed := by
  have hfg : (textRuleColors none none witTarget witText).fg = some whiteColor := by decide
  have hbg : (textRuleColors none none witTarget witText).bg = some whiteColor := by decide
  refine ⟨hfg, hbg, ?_⟩
  have hthr : requiredTextThreshold witText = 4.5 := by
    unfold requiredTextThreshold
    rw [if_neg (by decide)]
  refine (((evaluateTextContrast_thresholds.2 trivialPrims none none none witTarget
    witText).2 whiteColor whiteColor hfg hbg).1).mpr ?_
  rw [hthr, contrastRatio_white_white]
  norm_num

/-- C4: for every non-text contrast candidate node, a missing foreground or
background color downgrades the rule to a needs-manual-review finding (never
a hard failure), and when both colors are available the node fails exactly
when the contrast ratio is below 3:1; the background comes from
`findNearestBackground`, which involves no sampling fallback. -/
theorem evaluateNonTextContrast_handling (P : JsPrims) (designSystemColors :
    Option (List (String × String))) (target : NormalizedTarget)
    (node : NormalizedNode) (hmem : node ∈ likelyNonTextContrastNodes target) :
    (((firstStroke node).orElse (fun _ => firstFill node) = none ∨
        findNearestBackground target node = none) →
      ∃ f, nonTextContrastFindingForNode P designSystemColors target node = some f ∧
        f.status = FindingStatus.needsManualReview) ∧
    (∀ F B, (firstStroke node).orElse (fun _ => firstFill node) = some F →
      findNearestBackground target node = some B →
      ((∃ f, nonTextContrastFindingForNode P designSystemColors target node = some f ∧
          f.status = FindingStatus.failed) ↔ contrastRatio F B < 3) ∧
      (∀ f, nonTextContrastFindingForNode P designSystemColors target node = some f →
        f.status = FindingStatus.failed)) := by
  constructor
  · intro hmiss
    cases hfg : (firstStroke node).orElse (fun _ => firstFill node) with
    | none =>
      simp only [nonTextContrastFindingForNode, hfg]
      cases hbg : findNearestBackground target node <;> exact ⟨_, rfl, rfl⟩
    | some F =>
      have hbg : findNearestBackground target node = none := by
        rcases hmiss with h | h
        · rw [hfg] at h
          cases h
        · exact h
      simp only [nonTextContrastFindingForNode, hfg, hbg]
      exact ⟨_, rfl, rfl⟩
  · intro F B hfg hbg
    simp only [nonTextContrastFindingForNode, hfg, hbg]
    by_cases hr : (3 : ℝ) ≤ contrastRatio F B
    · rw [if_pos hr]
      constructor
      · constructor
        · rintro ⟨f, hf, _⟩
          cases hf
        · intro hlt
          exact absurd hr (not_le.mpr hlt)
      · intro f hf
        cases hf
    · rw [if_neg hr]
      exact ⟨⟨fun _ => not_le.mp hr, fun _ => ⟨_, rfl, rfl⟩⟩, fun f hf => by
        cases hf
        rfl⟩

/-- Witness for C4: a white icon-like rectangle over the white root fails the
3:1 requirement with ratio 1. -/
theorem evaluateNonTextContrast_handling_witness :
    witIcon ∈ likelyNonTextContrastNodes witIconTarget ∧
      (firstStroke witIcon).orElse (fun _ => firstFill witIcon) = some whiteColor ∧
      findNearestBackground witIconTarget witIcon = some whiteColor ∧
      ∃ f, nonTextContrastFindingForNode trivialPrims none witIconTarget witIcon =
        some f ∧ f.status = FindingStatus.failed := by
  have hmem : witIcon ∈ likelyNonTextContrastNodes witIconTarget := by decide
  have hfg : (firstStroke witIcon).orElse (fun _ => firstFill witIcon) = some whiteColor := by
    decide
  have hbg : findNearestBackground witIconTarget witIcon = some whiteColor := by decide
  refine ⟨hmem, hfg, hbg, ?_⟩
  refine ((evaluateNonTextContrast_handling trivialPrims none witIconTarget witIcon
    hmem).2 whiteColor whiteColor hfg hbg).1.mpr ?_
  rw [contrastRatio_white_white]
  norm_num

theorem scanBaseGo_eq_find (overlays : List Overlay) :
    ∀ k, scanBaseGo overlays k =
      ((List.range k).reverse).find?
        (fun i => decide ((0.999 : ℚ) ≤ (overlays.getD i default).color.a))
  | 0 => rfl
  | k + 1 => by
    rw [List.range_succ, List.reverse_append, List.reverse_singleton,
      List.singleton_append, List.find?_cons]
    cases hp : decide ((0.999 : ℚ) ≤ (overlays.getD k default).color.a)
    · simp only [scanBaseGo, scanBaseGo_eq_find overlays k]
      rw [if_neg (by simpa using hp)]
    · simp only [scanBaseGo]
      rw [if_pos (by simpa using hp)]

theorem scanBaseGo_lt (overlays : List Overlay) :
    ∀ k i, scanBaseGo overlays k = some i → i < k
  | 0, i, h => by simp [scanBaseGo] at h
  | k + 1, i, h => by
    rw [scanBaseGo] at h
    split_ifs at h with hp
    · cases h
      exact Nat.lt_succ_self k
    · exact Nat.lt_succ_of_lt (scanBaseGo_lt overlays k i h)

theorem composeGo_eq_foldr (overlays : List Overlay) :
    ∀ (k : ℕ) (acc : NormalizedColor), k ≤ overlays.length →
      composeGo overlays k acc =
        (overlays.take k).foldr (fun e a => flattenAlpha e.color a) acc
  | 0, acc, _ => rfl
  | k + 1, acc, h => by
    have hk : k < overlays.length := h
    rw [composeGo, composeGo_eq_foldr overlays k _ (le_of_lt hk), List.take_succ,
      List.foldr_append]
    congr 1
    simp [List.getD, List.getElem?_eq_getElem hk]

/-- C1: when at least one overlay candidate was collected, the resolver scans
the candidates from the furthest (outermost) one inward for a candidate with
alpha ≥ 0.999; with no fully opaque candidate it returns the "only translucent
overlays" reason and no color, otherwise it returns the color obtained by
starting from the opaque base and over-blending (`flattenAlpha`, the rounded
`fg*a + bg*(1-a)` blend) each nearer overlay in turn onto the accumulated
result. -/
theorem resolveEffectiveBackground_composition (target : NormalizedTarget)
    (node : NormalizedNode) (hne : (collectOverlays target node).1 ≠ []) :
    (specOpaqueBase (collectOverlays target node).1 = none →
      resolveEffectiveBackground target node =
        { reason := some translucentOnlyReason }) ∧
    (∀ i, specOpaqueBase (collectOverlays target node).1 = some i →
      (resolveEffectiveBackground target node).color =
        some (((collectOverlays target node).1.take i).foldr
          (fun e acc => flattenAlpha e.color acc)
          ((collectOverlays target node).1.getD i default).color) ∧
      (resolveEffectiveBackground target node).reason = none) := by
  have hov : ((collectOverlays target node).1.isEmpty) = false := by
    cases h : (collectOverlays target node).1
    · exact absurd h hne
    · rfl
  have hscan : scanBaseGo (collectOverlays target node).1
      (collectOverlays target node).1.length =
      specOpaqueBase (collectOverlays target node).1 :=
    scanBaseGo_eq_find (collectOverlays target node).1
      (collectOverlays target node).1.length
  constructor
  · intro hnone
    simp only [resolveEffectiveBackground, hov, Bool.false_eq_true, if_false]
    rw [hscan, hnone]
  · intro i hsome
    have hi : i < (collectOverlays target node).1.length :=
      scanBaseGo_lt _ _ _ (hscan.trans hsome)
    simp only [resolveEffectiveBackground, hov, Bool.false_eq_true, if_false]
    rw [hscan, hsome]
    refine ⟨?_, rfl⟩
    show some (composeGo (collectOverlays target node).1 i
      ((collectOverlays target node).1.getD i default).color) = _
    rw [composeGo_eq_foldr _ _ _ (le_of_lt hi)]

/-- Witness for C1: a text node under a white opaque root resolves by
composing from that single opaque candidate. -/
theorem resolveEffectiveBackground_composition_witness :
    (collectOverlays witTarget witText).1 ≠ [] ∧
      specOpaqueBase (collectOverlays witTarget witText).1 = some 0 ∧
      (resolveEffectiveBackground witTarget witText).color =
        some (((collectOverlays witTarget witText).1.take 0).foldr
          (fun e acc => flattenAlpha e.color acc)
          ((collectOverlays witTarget witText).1.getD 0 default).color) ∧
      (resolveEffectiveBackground witTarget witText).reason = none := by
  refine ⟨by decide, by decide, ?_, ?_⟩
  · exact ((resolveEffectiveBackground_composition witTarget witText (by decide)).2 0
      (by decide)).1
  · exact ((resolveEffectiveBackground_composition witTarget witText (by decide)).2 0
      (by decide)).2

/-- C2: the result of the resolver carries exactly one of a color or a
reason; with zero overlay candidates it returns the Target's fallback
background tagged as a document-level fallback when set, else a coverage
failure reason when at least one ancestor fill was skipped by the coverage
test, else the "no covering background" reason. -/
theorem resolveEffectiveBackground_exclusive (target : NormalizedTarget)
    (node : NormalizedNode) :
    ((resolveEffectiveBackground target node).reason = none ↔
      (resolveEffectiveBackground target node).color.isSome = true) ∧
    ((collectOverlays target node).1 = [] →
      (∀ c, target.fallbackBackgroundColor = some c →
        resolveEffectiveBackground target node =
          { color := some c, sourceLayerPath := some documentFallbackPath
            reason := none }) ∧
      (target.fallbackBackgroundColor = none →
        0 < (collectOverlays target node).2 →
        resolveEffectiveBackground target node = { reason := some coverageFailReason }) ∧
      (target.fallbackBackgroundColor = none →
        (collectOverlays target node).2 = 0 →
        resolveEffectiveBackground target node = { reason := some noCoveringReason })) := by
  constructor
  · by_cases hov : ((collectOverlays target node).1.isEmpty) = true
    · simp only [resolveEffectiveBackground, hov, if_true]
      cases hfb : target.fallbackBackgroundColor
      · by_cases hsk : 0 < (collectOverlays target node).2 <;> simp [hsk]
      · simp
    · rw [Bool.not_eq_true] at hov
      simp only [resolveEffectiveBackground, hov, Bool.false_eq_true, if_false]
      cases hscan : scanBaseGo (collectOverlays target node).1
          (collectOverlays target node).1.length <;> simp
  · intro hzero
    have hov : ((collectOverlays target node).1.isEmpty) = true := by
      rw [hzero]
      rfl
    refine ⟨?_, ?_, ?_⟩
    · intro c hfb
      simp only [resolveEffectiveBackground, hov, if_true, hfb]
    · intro hfb hsk
      simp only [resolveEffectiveBackground, hov, if_true, hfb]
      rw [if_pos hsk]
    · intro hfb hsk
      simp only [resolveEffectiveBackground, hov, if_true, hfb]
      rw [if_neg (by omega)]

/-- Witness for C2: a parentless node in a target with a document fallback
background resolves to that fallback, tagged as such. -/
theorem resolveEffectiveBackground_exclusive_witness :
    (collectOverlays witFallbackTarget witOrphan).1 = [] ∧
      witFallbackTarget.fallbackBackgroundColor = some { r := 10, g := 20, b := 30, a := 1 } ∧
      resolveEffectiveBackground witFallbackTarget witOrphan =
        { color := some { r := 10, g := 20, b := 30, a := 1 }
          sourceLayerPath := some documentFallbackPath, reason := none } := by
  refine ⟨by decide, rfl, ?_⟩
  exact ((resolveEffectiveBackground_exclusive witFallbackTarget witOrphan).2
    (by decide)).1 _ rfl

theorem suppressionCheck_fst (parseDate : String → Option ℤ) (nowMs : ℤ) (idx : ℕ)
    (s : Suppression) :
    (suppressionCheck parseDate nowMs idx s).1 = suppressionValid parseDate nowMs s := by
  unfold suppressionCheck suppressionValid
  split_ifs with h1
  · simp [h1]
  · cases hp : parseDate s.expiresOn with
    | none => simp [h1, hp]
    | some expiry => by_cases he : expiry < nowMs <;> simp [h1, hp, he]

theorem suppressionCheck_snd_isSome (parseDate : String → Option ℤ) (nowMs : ℤ)
    (idx : ℕ) (s : Suppression) :
    (suppressionCheck parseDate nowMs idx s).2.isSome =
      !(suppressionValid parseDate nowMs s) := by
  unfold suppressionCheck suppressionValid
  split_ifs with h1
  · simp [h1]
  · cases hp : parseDate s.expiresOn with
    | none => simp [h1, hp]
    | some expiry => by_cases he : expiry < nowMs <;> simp [h1, hp, he]

theorem activeFilter_eq (parseDate : String → Option ℤ) (nowMs : ℤ) :
    ∀ (l : List Suppression) (n : ℕ),
      (((l.enumFrom n).map (fun p => (p.2, suppressionCheck parseDate nowMs p.1 p.2))).filter
          (fun c => c.2.1)).map (fun c => c.1) =
        l.filter (suppressionValid parseDate nowMs)
  | [], _ => rfl
  | s :: rest, n => by
    simp only [List.enumFrom, List.map_cons, List.filter_cons, suppressionCheck_fst]
    cases hv : suppressionValid parseDate nowMs s <;>
      simp [hv, activeFilter_eq parseDate nowMs rest (n + 1)]

theorem warningsLength_eq (parseDate : String → Option ℤ) (nowMs : ℤ) :
    ∀ (l : List Suppression) (n : ℕ),
      (((l.enumFrom n).map (fun p => (p.2, suppressionCheck parseDate nowMs p.1 p.2))).filterMap
          (fun c => c.2.2)).length =
        (l.filter (fun s => !(suppressionValid parseDate nowMs s))).length
  | [], _ => rfl
  | s :: rest, n => by
    have hsnd := suppressionCheck_snd_isSome parseDate nowMs n s
    simp only [List.enumFrom, List.map_cons, List.filterMap_cons, List.filter_cons]
    cases hopt : (suppressionCheck parseDate nowMs n s).2 with
    | none =>
      rw [hopt] at hsnd
      have hv : suppressionValid parseDate nowMs s = true := by
        cases hv : suppressionValid parseDate nowMs s
        · rw [hv] at hsnd
          simp at hsnd
        · rfl
      have ih := warningsLength_eq parseDate nowMs rest (n + 1)
      simp only [List.filterMap_map] at ih
      simp [hv, ih]
    | some w =>
      rw [hopt] at hsnd
      have hv : suppressionValid parseDate nowMs s = false := by
        cases hv : suppressionValid parseDate nowMs s
        · rfl
        · rw [hv] at hsnd
          simp at hsnd
      have ih := warningsLength_eq parseDate nowMs rest (n + 1)
      simp only [List.filterMap_map] at ih
      simp [hv, ih]

/-- C6 (counterexample): a suppression whose `expiresOn` parses to exactly the
run time is applied to a matching failed finding, although its expiry is not
in the future relative to `now` — the source only rejects
`expiry.getTime() < now.getTime()`. -/
theorem applySuppressions_at_expiry_equal_now :
    ((applySuppressions witParseDate 0 "now" [witFinding] [witSuppression]).findings.map
        (fun f => f.suppressed.isSome)) = [true] ∧
      witParseDate witSuppression.expiresOn = some 0 ∧ ¬((0 : ℤ) < 0) := by
  refine ⟨by decide, rfl, by decide⟩

/-- C6 (amended): a suppression is applied to matching findings exactly when
its reason is non-blank and its `expiresOn` parses to a date *not earlier
than* `now`; each invalid suppression (blank reason, unparseable date, or
past expiry) contributes exactly one warning and suppresses nothing, so a
finding matched only by invalid suppressions passes through unchanged. -/
theorem applySuppressions_validity (parseDate : String → Option ℤ) (nowMs : ℤ)
    (nowIso : String) (findings : List Finding) (suppressions : List Suppression) :
    ((applySuppressions parseDate nowMs nowIso findings suppressions).findings =
      findings.map (fun f =>
        match (suppressions.filter (suppressionValid parseDate nowMs)).find?
            (fun s => suppressionMatches s f) with
        | none => f
        | some m =>
          { f with suppressed := some { toSuppression := m, matchedAt := nowIso } })) ∧
    ((applySuppressions parseDate nowMs nowIso findings suppressions).warnings.length =
      (suppressions.filter (fun s => !(suppressionValid parseDate nowMs s))).length) ∧
    (∀ f : Finding,
      (∀ s ∈ suppressions, suppressionValid parseDate nowMs s = true →
        suppressionMatches s f = false) →
      (applySuppressions parseDate nowMs nowIso [f] suppressions).findings = [f]) := by
  have hactive : ∀ fs : List Finding,
      (applySuppressions parseDate nowMs nowIso fs suppressions).findings =
        fs.map (fun f =>
          match (suppressions.filter (suppressionValid parseDate nowMs)).find?
              (fun s => suppressionMatches s f) with
          | none => f
          | some m =>
            { f with suppressed := some { toSuppression := m, matchedAt := nowIso } }) := by
    intro fs
    have ha : ((suppressions.enum.map
        (fun p => (p.2, suppressionCheck parseDate nowMs p.1 p.2))).filter
          (fun c => c.2.1)).map (fun c => c.1) =
        suppressions.filter (suppressionValid parseDate nowMs) := by
      have h := activeFilter_eq parseDate nowMs suppressions 0
      simpa [List.enum] using h
    simp only [applySuppressions]
    rw [ha]
  refine ⟨hactive findings, ?_, ?_⟩
  · have hw := warningsLength_eq parseDate nowMs suppressions 0
    simp only [applySuppressions]
    simpa [List.enum] using hw
  · intro f hf
    rw [hactive [f]]
    have hnone : (suppressions.filter (suppressionValid parseDate nowMs)).find?
        (fun s => suppressionMatches s f) = none := by
      rw [List.find?_eq_none]
      intro s hs
      rw [List.mem_filter] at hs
      simp [hf s hs.1 hs.2]
    simp only [List.map_cons, List.map_nil, hnone]

/-- Witness for C6: with run time 1, a suppression whose date parses to 0 is
expired and therefore leaves the matching finding untouched. -/
theorem applySuppressions_validity_witness :
    (∀ s ∈ [witSuppression], suppressionValid witParseDate 1 s = true →
      suppressionMatches s witFinding = false) ∧
    (applySuppressions witParseDate 1 "now" [witFinding] [witSuppression]).findings =
      [witFinding] := by
  refine ⟨by decide, ?_⟩
  exact (applySuppressions_validity witParseDate 1 "now" [witFinding]
    [witSuppression]).2.2 witFinding (by decide)

/-- Witness for C8 at two concrete duplicate records. -/
theorem mergeNodesById_merges_duplicates_witness :
    witText.id = ({ witText with name := "LongerLabel" } : NormalizedNode).id ∧
      mergeNodesById [witText, { witText with name := "LongerLabel" }] =
        [mergeTwo witText { witText with name := "LongerLabel" }] := by
  exact ⟨rfl, mergeNodesById_merges_duplicates.1 _ _ rfl⟩

end Audit

